import Mathlib

/-!
# The native crash handler of `bugsnag.c`

A shallow embedding of `bugsnagndk/src/main/jni/bugsnag.c`: the frame validator, the manual stack
scanner, the two library-backed unwinders, the strategy selector, the report builder of
`signal_handler`, and the installation and removal of the signal handler.

Conventions of the embedding.

* Addresses and machine words are natural numbers; `uintptr_t` arithmetic is reduced modulo
  `2 ^ (8 * sizeof(uintptr_t))` where the C code computes with it. The null pointer is `0`.
* A C string is a `String` (its characters up to the terminating NUL); a `char *` that may be
  `NULL` is an `Option String`.
* Everything the handler obtains from outside the translation unit is an explicit input:
  `dladdr`, the stack memory, the result of each `dlopen`/`dlsym`, and what the entry points of
  the two unwinding libraries return.
* The global buffers `g_native_code` and `g_bugsnag_error` are passed in and returned, so the
  contents left behind by an earlier crash are part of the input.
* The constants of `bugsnag.h` are fields of `Config`: the header is not among the sources.
-/

namespace Bugsnag

/-! ## Data model -/

/-- The constants `bugsnag.c` takes from `bugsnag.h`, and `sizeof(uintptr_t)` of the target. -/
structure Config where
  FRAMES_MAX : Nat
  WORDS_TO_SCAN : Nat
  FRAMES_TO_IGNORE : Nat
  SIG_CATCH_COUNT : Nat
  SIG_NUMBER_MAX : Nat
  ptr_bytes : Nat

/-- The number of values of a `uintptr_t`. -/
def ptr_mod (cfg : Config) : Nat := 2 ^ (8 * cfg.ptr_bytes)

/-- The fields `struct unwind_struct_frame` holds: an address and a name buffer. -/
structure unwind_struct_frame where
  frame_pointer : Nat
  method : String

/-- The array `frames` of `struct unwind_struct`, by index. -/
abbrev unwind_struct := Nat → unwind_struct_frame

/-- Assignment to `unwind->frames[i]`. -/
def set_frame (unwind : unwind_struct) (i : Nat) (f : unwind_struct_frame) : unwind_struct :=
  fun j => if j = i then f else unwind j

/-- The result `dladdr` stores in a `Dl_info`. -/
structure Dl_info where
  dli_fname : Option String
  dli_fbase : Nat
  dli_sname : Option String
  dli_saddr : Nat

/-- The two registers the handler reads from a `ucontext_t`. -/
structure ucontext_t where
  pc : Nat
  sp : Nat

/-- The process image at the time of the fault: the dynamic linker's answer for every address
(`none` when `dladdr` returns 0) and the word stored at every address. -/
structure Process where
  dladdr : Nat → Option Dl_info
  mem : Nat → Nat

/-! ## Context extractor -/

/-- Source: `get_pc_from_ucontext`; every architecture branch reads one register. -/
def get_pc_from_ucontext (uc : ucontext_t) : Nat := uc.pc

/-- Source: `get_sp_from_ucontext`. -/
def get_sp_from_ucontext (uc : ucontext_t) : Nat := uc.sp

/-! ## Prefix tables -/

/-- The libc call `strncmp(a, b, n) == 0` on NUL-terminated strings. -/
def strncmp_zero (a b : String) (n : Nat) : Bool :=
  a.data.take n == b.data.take n

/-- Source: `starts_with(pre, str)`. -/
def starts_with (pre : String) (str : Option String) : Bool :=
  match str with
  | none => false
  | some s =>
    let lenpre := pre.length
    let lenstr := s.length
    if lenstr < lenpre then false else strncmp_zero pre s lenpre

/-- Source: `is_system_method`. -/
def is_system_method (method : Option String) : Bool :=
  if starts_with "__aeabi_" method then true else false

/-- Source: `is_system_file`. -/
def is_system_file (file : Option String) : Bool :=
  if starts_with "/system/" file
      || starts_with "libc.so" file
      || starts_with "libdvm.so" file
      || starts_with "libcutils.so" file
      || starts_with "[heap]" file then true else false

/-! ## Frame validator and manual scanner -/

/-- Source: `unwind_basic`. Only `frame_pointer` of slot 0 is assigned. -/
def unwind_basic (unwind : unwind_struct) (uc : ucontext_t) : Int × unwind_struct :=
  (1, set_frame unwind 0 { unwind 0 with frame_pointer := get_pc_from_ucontext uc })

/-- Source: `is_valid_pc`. -/
def is_valid_pc (p : Process) (addr : Nat) : Bool :=
  if addr ≠ 0 then
    match p.dladdr addr with
    | some info => !(is_system_file info.dli_fname || is_system_method info.dli_sname)
    | none => false
  else false

/-- The address `current_frame_base + j * sizeof(uintptr_t)` of `look_for_next_frame`. -/
def stack_element (cfg : Config) (current_frame_base j : Nat) : Nat :=
  (current_frame_base + j * cfg.ptr_bytes) % ptr_mod cfg

/-- The `for` loop of `look_for_next_frame`, with `n` iterations left from index `j`. The result
is `(new_frame_base, found_pc)` when the loop returns 1. -/
def look_for_next_frame_loop (cfg : Config) (p : Process) (current_frame_base : Nat) :
    Nat → Nat → Option (Nat × Nat)
  | 0, _ => none
  | n + 1, j =>
    let stack_element := stack_element cfg current_frame_base j
    let stack_value := p.mem stack_element
    if is_valid_pc p stack_value then some (stack_element, stack_value)
    else look_for_next_frame_loop cfg p current_frame_base n (j + 1)

/-- Source: `look_for_next_frame`. -/
def look_for_next_frame (cfg : Config) (p : Process) (current_frame_base : Nat) :
    Option (Nat × Nat) :=
  look_for_next_frame_loop cfg p current_frame_base cfg.WORDS_TO_SCAN 0

/-- The `while (current_output_frame < max_depth)` loop of `unwind_frame`. Every iteration that
continues increases `current_output_frame`, so `(max_depth - current_output_frame)` iterations are
enough; `fuel` bounds them (see `unwind_frame_loop_fuel`). -/
def unwind_frame_loop (cfg : Config) (p : Process) (max_depth : Int) :
    Nat → Nat → Nat → unwind_struct → Nat × unwind_struct
  | 0, _, current_output_frame, unwind => (current_output_frame, unwind)
  | fuel + 1, current_frame_base, current_output_frame, unwind =>
    if (current_output_frame : Int) < max_depth then
      match look_for_next_frame cfg p current_frame_base with
      | some (new_frame_base, found_pc) =>
        unwind_frame_loop cfg p max_depth fuel
          ((new_frame_base + cfg.ptr_bytes) % ptr_mod cfg)
          (current_output_frame + 1)
          (set_frame unwind current_output_frame ⟨found_pc, ""⟩)
      | none => (current_output_frame, unwind)
    else (current_output_frame, unwind)

/-- The state of `unwind_frame` after the program counter has been examined. -/
def unwind_frame_first (p : Process) (unwind : unwind_struct) (uc : ucontext_t) :
    Nat × unwind_struct :=
  let pc := get_pc_from_ucontext uc
  if is_valid_pc p pc then (1, set_frame unwind 0 ⟨pc, ""⟩) else (0, unwind)

/-- Source: `unwind_frame`. -/
def unwind_frame (cfg : Config) (p : Process) (unwind : unwind_struct) (max_depth : Int)
    (uc : ucontext_t) : Int × unwind_struct :=
  let first := unwind_frame_first p unwind uc
  let sp := get_sp_from_ucontext uc
  let r := unwind_frame_loop cfg p max_depth max_depth.toNat sp first.1 first.2
  if r.1 > 0 then ((r.1 : Int), r.2) else unwind_basic r.2 uc

/-! ## Library-backed unwinders -/

/-- The fields of `struct siginfo` the handler reads. -/
structure siginfo where
  si_signo : Int
  si_code : Int

/-- What `dlsym` and the resolved entry points of `libunwind.so` give, over a cursor type `σ`:
`init_local` is `none` when the pointer is `NULL` (symbol missing, or an architecture of the
`#else` branch); `step` returns its result and the advanced cursor; `get_reg_ip` is
`get_reg(&cursor, UNW_REG_IP, &ip)`; `get_proc_name` gives the name written to the buffer and the
offset. -/
structure Libunwind (σ : Type) where
  init_local : Option (ucontext_t → σ)
  step : σ → Int × σ
  get_reg_ip : σ → Nat
  get_proc_name : σ → String × Nat

/-- One pass through the `do` body of `unwind_libunwind` and its `while` condition: `Sum.inl` when
the loop is left (with the count returned), `Sum.inr` when it goes round again. -/
def unwind_libunwind_body {σ : Type} (lib : Libunwind σ) (max_depth : Int) (cursor : σ)
    (count : Nat) (unwind : unwind_struct) :
    (Nat × unwind_struct) ⊕ (σ × Nat × unwind_struct) :=
  let ip := lib.get_reg_ip cursor
  let name := lib.get_proc_name cursor
  let unwind1 := set_frame unwind count ⟨ip, name.1⟩
  if name.2 = 0 then Sum.inl (count, unwind1)
  else
    let count1 := count + 1
    let s := lib.step cursor
    if s.1 > 0 ∧ (count1 : Int) < max_depth then Sum.inr (s.2, count1, unwind1)
    else Sum.inl (count1, unwind1)

/-- The `do ... while` loop of `unwind_libunwind`. It goes round again only while
`count < max_depth`, so `max_depth` rounds of fuel are enough (see `unwind_libunwind_loop_fuel`). -/
def unwind_libunwind_loop {σ : Type} (lib : Libunwind σ) (max_depth : Int) :
    Nat → σ → Nat → unwind_struct → Nat × unwind_struct
  | 0, cursor, count, unwind =>
    match unwind_libunwind_body lib max_depth cursor count unwind with
    | Sum.inl r => r
    | Sum.inr (_, count1, unwind1) => (count1, unwind1)
  | fuel + 1, cursor, count, unwind =>
    match unwind_libunwind_body lib max_depth cursor count unwind with
    | Sum.inl r => r
    | Sum.inr (cursor1, count1, unwind1) =>
      unwind_libunwind_loop lib max_depth fuel cursor1 count1 unwind1

/-- Source: `unwind_libunwind`. -/
def unwind_libunwind {σ : Type} (cfg : Config) (p : Process) (lib : Libunwind σ)
    (unwind : unwind_struct) (max_depth : Int) (uc : ucontext_t) : Int × unwind_struct :=
  match lib.init_local with
  | some init_local =>
    let r := unwind_libunwind_loop lib max_depth max_depth.toNat (init_local uc) 0 unwind
    ((r.1 : Int), r.2)
  | none => unwind_frame cfg p unwind max_depth uc

/-- Source: `backtrace_frame_t`. -/
structure backtrace_frame_t where
  absolute_pc : Nat
  stack_top : Nat
  stack_size : Nat

/-- The fields of `backtrace_symbol_t` the code reads. -/
structure backtrace_symbol_t where
  map_name : Option String
  symbol_name : Option String

/-- What `dlsym` and the entry points of `libcorkscrew.so` give: `entry_points` is true when all
five pointers are non-`NULL`; `unwind_backtrace_signal_arch` is given the `max_depth` argument and
returns `size` and the filled `frames` array; `get_backtrace_symbols` fills `symbols`. -/
structure Libcorkscrew where
  entry_points : Bool
  unwind_backtrace_signal_arch : siginfo → ucontext_t → Int → Int × (Nat → backtrace_frame_t)
  get_backtrace_symbols : (Nat → backtrace_frame_t) → Int → Nat → backtrace_symbol_t

/-- The condition under which `unwind_libcorkscrew` sets `non_system_found`. -/
def non_system_symbol (backtrace_symbol : backtrace_symbol_t) : Bool :=
  backtrace_symbol.map_name.isSome
    && !is_system_file backtrace_symbol.map_name
    && (backtrace_symbol.symbol_name.isNone || !is_system_method backtrace_symbol.symbol_name)

/-- The body of the `for` loop of `unwind_libcorkscrew` at index `i`, on the pair of the frame
buffer and `non_system_found`. -/
def unwind_libcorkscrew_step (frames : Nat → backtrace_frame_t)
    (symbols : Nat → backtrace_symbol_t) (st : unwind_struct × Bool) (i : Nat) :
    unwind_struct × Bool :=
  let frame := st.1 i
  let backtrace_frame := frames i
  let backtrace_symbol := symbols i
  let method :=
    match backtrace_symbol.symbol_name with
    | some name => name
    | none => frame.method
  let unwind1 := set_frame st.1 i ⟨backtrace_frame.absolute_pc, method⟩
  if non_system_symbol backtrace_symbol then (unwind1, true) else (unwind1, st.2)

/-- Source: `unwind_libcorkscrew`. -/
def unwind_libcorkscrew (cfg : Config) (p : Process) (lib : Libcorkscrew)
    (unwind : unwind_struct) (max_depth : Int) (si : siginfo) (uc : ucontext_t) :
    Int × unwind_struct :=
  if lib.entry_points then
    let bt := lib.unwind_backtrace_signal_arch si uc max_depth
    let size := bt.1
    let frames := bt.2
    let symbols := lib.get_backtrace_symbols frames size
    let r := (List.range size.toNat).foldl (unwind_libcorkscrew_step frames symbols)
      (unwind, false)
    if r.2 then (size, r.1) else unwind_frame cfg p r.1 max_depth uc
  else unwind_frame cfg p unwind max_depth uc

/-- The results of the two `dlopen` calls of `unwind_stack`; `none` is `NULL`. -/
structure Libraries (σ : Type) where
  libunwind : Option (Libunwind σ)
  libcorkscrew : Option Libcorkscrew

/-- Source: `unwind_stack`. -/
def unwind_stack {σ : Type} (cfg : Config) (p : Process) (libs : Libraries σ)
    (unwind : unwind_struct) (max_depth : Int) (si : siginfo) (uc : ucontext_t) :
    Int × unwind_struct :=
  match libs.libunwind with
  | some libunwind => unwind_libunwind cfg p libunwind unwind max_depth uc
  | none =>
    match libs.libcorkscrew with
    | some libcorkscrew => unwind_libcorkscrew cfg p libcorkscrew unwind max_depth si uc
    | none => unwind_frame cfg p unwind max_depth uc

/-! ## Signal names and the report builder -/

/-- Signal numbers of `<signal.h>` on Linux for ARM and x86, the targets of the build. -/
def SIGILL : Int := 4
/-- See `SIGILL`. -/
def SIGTRAP : Int := 5
/-- See `SIGILL`. -/
def SIGABRT : Int := 6
/-- See `SIGILL`. -/
def SIGBUS : Int := 7
/-- See `SIGILL`. -/
def SIGFPE : Int := 8
/-- See `SIGILL`. -/
def SIGSEGV : Int := 11

/-- Source: `get_signal_name`. -/
def get_signal_name (code : Int) : String :=
  if code = SIGILL then "SIGILL"
  else if code = SIGTRAP then "SIGTRAP"
  else if code = SIGABRT then "SIGABRT"
  else if code = SIGBUS then "SIGBUS"
  else if code = SIGFPE then "SIGFPE"
  else if code = SIGSEGV then "SIGSEGV"
  else "UNKNOWN"

/-- The conversion `%d` of `sprintf`: an optional minus sign and the decimal digits. -/
def sprintf_d (n : Int) : String :=
  if n < 0 then "-" ++ Nat.repr n.natAbs else Nat.repr n.natAbs

/-- The fields of `struct bugsnag_stack_frame` the handler assigns; `in_project` holds 0 or 1 in
C. -/
structure bugsnag_stack_frame where
  file : Option String
  method : Option String
  file_address : Nat
  method_address : Nat
  frame_address : Nat
  file_offset : Int
  method_offset : Int
  in_project : Bool

/-- The member `exception` of `struct bugsnag_error`. -/
structure bugsnag_exception where
  message : String
  error_class : String
  stack_trace : Nat → bugsnag_stack_frame
  frames_used : Int

/-- The part of `struct bugsnag_error` the handler reads or writes. -/
structure bugsnag_error where
  exception : bugsnag_exception
  error_store_path : String

/-- The difference `(uintptr_t)a - (uintptr_t)b`. -/
def uintptr_sub (cfg : Config) (a b : Nat) : Nat :=
  (a % ptr_mod cfg + (ptr_mod cfg - b % ptr_mod cfg)) % ptr_mod cfg

/-- The conversion `(int)x` of an unsigned value to the 32-bit `int`. -/
def to_int (x : Nat) : Int :=
  if x % 2 ^ 32 < 2 ^ 31 then ((x % 2 ^ 32 : Nat) : Int) else ((x % 2 ^ 32 : Nat) : Int) - 2 ^ 32

/-- The assignments `signal_handler` makes to `*bugsnag_frame` for the raw frame `*unwind_frame`
once `dladdr` has filled `info`; `old` is what the slot held before. -/
def signal_handler_frame (cfg : Config) (old : bugsnag_stack_frame)
    (unwind_frame : unwind_struct_frame) (info : Dl_info) : bugsnag_stack_frame :=
  let file :=
    match info.dli_fname with
    | some name => some name
    | none => old.file
  let method :=
    if unwind_frame.method.length > 1 then some unwind_frame.method else info.dli_sname
  let file_offset := uintptr_sub cfg unwind_frame.frame_pointer info.dli_fbase
  let method_offset :=
    if info.dli_saddr ≠ 0 then
      to_int (uintptr_sub cfg unwind_frame.frame_pointer info.dli_saddr)
    else old.method_offset
  { file := file
    method := method
    file_address := info.dli_fbase
    method_address := info.dli_saddr
    frame_address := unwind_frame.frame_pointer
    file_offset := to_int file_offset
    method_offset := method_offset
    in_project := if is_system_file file || is_system_method method then false else true }

/-- The body of the `for` loop of `signal_handler` at index `i`, on the pair of the report's
`stack_trace` and `frames_used`. -/
def signal_handler_step (cfg : Config) (p : Process) (g_native_code : unwind_struct)
    (st : (Nat → bugsnag_stack_frame) × Nat) (i : Nat) : (Nat → bugsnag_stack_frame) × Nat :=
  let unwind_frame := g_native_code (i + cfg.FRAMES_TO_IGNORE)
  match p.dladdr unwind_frame.frame_pointer with
  | some info =>
    (fun k => if k = st.2 then signal_handler_frame cfg (st.1 st.2) unwind_frame info
      else st.1 k, st.2 + 1)
  | none => st

/-- Source: `signal_handler`, up to the assignment of `frames_used`: the new contents of
`g_native_code` and `g_bugsnag_error`. Writing the file and calling the previous handler follow
and leave both buffers as they are. -/
def signal_handler {σ : Type} (cfg : Config) (p : Process) (libs : Libraries σ)
    (g_native_code : unwind_struct) (g_bugsnag_error : bugsnag_error) (si : siginfo)
    (uc : ucontext_t) : unwind_struct × bugsnag_error :=
  let unwound := unwind_stack cfg p libs g_native_code cfg.FRAMES_MAX si uc
  let frames_size := unwound.1
  let message := "Fatal signal from native: " ++ sprintf_d si.si_signo ++ " ("
    ++ get_signal_name si.si_signo ++ "), code " ++ sprintf_d si.si_code
  let error_class := "Native Error: " ++ get_signal_name si.si_signo
  let project_frames : Int := frames_size - cfg.FRAMES_TO_IGNORE
  let r :=
    if project_frames > 0 then
      (List.range project_frames.toNat).foldl (signal_handler_step cfg p unwound.2)
        (g_bugsnag_error.exception.stack_trace, 0)
    else (g_bugsnag_error.exception.stack_trace, 0)
  (unwound.2,
    { g_bugsnag_error with
      exception :=
        { message := message
          error_class := error_class
          stack_trace := r.1
          frames_used := (r.2 : Int) } })

/-! ## Installing and removing the handler -/

/-- The fields of `struct sigaction`, `sa_flags` as its bit pattern; `sa_sigaction = 0` is the
`NULL` handler. -/
structure struct_sigaction where
  sa_sigaction : Nat
  sa_mask : Nat
  sa_flags : Nat
  sa_restorer : Nat
deriving DecidableEq

/-- The flag `SA_SIGINFO` of `<signal.h>`. -/
def SA_SIGINFO : Nat := 4

/-- The flag `SA_RESTORER` of the Linux signal interface. -/
def SA_RESTORER : Nat := 0x4000000

/-- What the C library's `sigaction` does with a new action before it hands it to the kernel:
handler and mask go through as given, `sa_flags` and `sa_restorer` are what the library makes of
them (glibc and bionic set `SA_RESTORER` and the address of their own return trampoline on the
targets that have one). The old action is copied out as the kernel holds it. -/
structure Libc where
  kernel_flags : struct_sigaction → Nat
  kernel_restorer : struct_sigaction → Nat

/-- The action the kernel receives when `act` is passed to the library's `sigaction`. -/
def kernel_action (libc : Libc) (act : struct_sigaction) : struct_sigaction :=
  { act with sa_flags := libc.kernel_flags act, sa_restorer := libc.kernel_restorer act }

/-- Source: `native_sig_catch[i]`; the initialiser lists six signals and the rest of the array is
zero. -/
def native_sig_catch (i : Nat) : Int :=
  [SIGILL, SIGTRAP, SIGABRT, SIGBUS, SIGFPE, SIGSEGV].getD i 0

/-- The signals that `sigaction(2)` on Linux accepts with a new action: 1 to 64 without `SIGKILL`
and `SIGSTOP`. For any other number the call fails with `EINVAL` and changes nothing. -/
def sigaction_accepts (sig : Int) : Bool :=
  decide (1 ≤ sig) && decide (sig ≤ 64) && decide (sig ≠ 9) && decide (sig ≠ 19)

/-- The process state the two entry points act on: the kernel's disposition of every signal, and
the array `g_sigaction_old` of `SIG_NUMBER_MAX` entries (by index; an index outside the array is
no object of the program, the model neither stores to it nor reads more than zeroes from it). -/
structure Signals where
  disposition : Int → struct_sigaction
  g_sigaction_old : Int → struct_sigaction

/-- The zeroed `struct sigaction` that `calloc` and `memset` leave. -/
def zero_sigaction : struct_sigaction := ⟨0, 0, 0, 0⟩

/-- The element `g_sigaction_old[sig]` read as a value. -/
def old_at (cfg : Config) (s : Signals) (sig : Int) : struct_sigaction :=
  if 0 ≤ sig ∧ sig < cfg.SIG_NUMBER_MAX then s.g_sigaction_old sig else zero_sigaction

/-- The call `sigaction(sig, g_sigaction, &g_sigaction_old[sig])` of `setupBugsnag`: the kernel's
action of `sig` is copied to `g_sigaction_old[sig]` and replaced by `g_sigaction` as the library
passes it on. -/
def sigaction_install (cfg : Config) (libc : Libc) (g_sigaction : struct_sigaction) (s : Signals)
    (sig : Int) : Signals :=
  if sigaction_accepts sig then
    { disposition := fun n => if n = sig then kernel_action libc g_sigaction else s.disposition n
      g_sigaction_old := fun n =>
        if n = sig ∧ 0 ≤ sig ∧ sig < cfg.SIG_NUMBER_MAX then s.disposition sig
        else s.g_sigaction_old n }
  else s

/-- The call `sigaction(sig, &g_sigaction_old[sig], NULL)` of `tearDownBugsnag`: the kernel's
action of `sig` is replaced by the saved one as the library passes it on. -/
def sigaction_restore (cfg : Config) (libc : Libc) (s : Signals) (sig : Int) : Signals :=
  if sigaction_accepts sig then
    { s with
      disposition := fun n =>
        if n = sig then kernel_action libc (old_at cfg s sig) else s.disposition n }
  else s

/-- The action `setupBugsnag` builds in `g_sigaction`: zeroed, with the handler at address
`handler`, an empty mask and `SA_SIGINFO`. -/
def handler_action (handler : Nat) : struct_sigaction :=
  { zero_sigaction with sa_sigaction := handler, sa_flags := SA_SIGINFO }

/-- Source: `setupBugsnag`, on the signal state: `g_sigaction` is `handler_action`,
`g_sigaction_old` is allocated zeroed, and the loop installs the action for
`native_sig_catch[0 .. SIG_CATCH_COUNT - 1]`. -/
def setupBugsnag (cfg : Config) (libc : Libc) (handler : Nat)
    (disposition : Int → struct_sigaction) : Signals :=
  let g_sigaction : struct_sigaction := handler_action handler
  (List.range cfg.SIG_CATCH_COUNT).foldl
    (fun s i => sigaction_install cfg libc g_sigaction s (native_sig_catch i))
    { disposition := disposition, g_sigaction_old := fun _ => zero_sigaction }

/-- Source: `tearDownBugsnag`, on the signal state (the four `free` calls follow). -/
def tearDownBugsnag (cfg : Config) (libc : Libc) (s : Signals) : Signals :=
  (List.range cfg.SIG_CATCH_COUNT).foldl
    (fun s i => sigaction_restore cfg libc s (native_sig_catch i)) s

/-! ## Conditions on the inputs used in the statements -/

/-- The raw frames the report builder reads all had their name written by the strategy: at least
one frame is ignored (the single frame of `unwind_basic` has no name assigned), and the legacy
library, when it is the one consulted, gives a symbol name for every frame of its backtrace. -/
def names_written {σ : Type} (cfg : Config) (libs : Libraries σ) (si : siginfo)
    (uc : ucontext_t) : Prop :=
  1 ≤ cfg.FRAMES_TO_IGNORE
    ∧ ∀ lib, libs.libunwind = none → libs.libcorkscrew = some lib →
        ∀ j : Nat, (j : Int) < (lib.unwind_backtrace_signal_arch si uc cfg.FRAMES_MAX).1 →
          (lib.get_backtrace_symbols (lib.unwind_backtrace_signal_arch si uc cfg.FRAMES_MAX).2
            (lib.unwind_backtrace_signal_arch si uc cfg.FRAMES_MAX).1 j).symbol_name ≠ none

/-- Whenever `dladdr` resolves an address it gives a file name. -/
def files_named (p : Process) : Prop :=
  ∀ a info, p.dladdr a = some info → info.dli_fname ≠ none

/-- The fields on which two report frames built from the same crash agree; `HM` stands for the
raw names having been written and `HF` for `dladdr` naming the file. -/
def fresh_fields (HM HF : Prop) (f1 f2 : bugsnag_stack_frame) : Prop :=
  f1.frame_address = f2.frame_address
    ∧ f1.file_address = f2.file_address
    ∧ f1.method_address = f2.method_address
    ∧ f1.file_offset = f2.file_offset
    ∧ (f1.method_address ≠ 0 → f1.method_offset = f2.method_offset)
    ∧ (HM → f1.method = f2.method)
    ∧ (HF → f1.file = f2.file)
    ∧ (HM → HF → f1.in_project = f2.in_project)

/-- The filter the specification describes, on a raw trace of `n` frames in the buffer `raw`: the
positions `N, N + 1, ..., n - 1` (`N = FRAMES_TO_IGNORE`) at whose address `dladdr` succeeds, in
increasing order. It is stated from the specification, to be compared with the loop of
`signal_handler`. -/
def kept_positions (cfg : Config) (p : Process) (raw : unwind_struct) (n : Int) : List Nat :=
  ((List.range (n - cfg.FRAMES_TO_IGNORE).toNat).map (fun i => i + cfg.FRAMES_TO_IGNORE)).filter
    (fun j => (p.dladdr (raw j).frame_pointer).isSome)

/-- The number a string of decimal digits denotes, read from the left with the digit `0` at
code 48. It states what "in decimal" means, to be compared with `sprintf_d`. -/
def decimal_value (digits : List Char) : Nat :=
  digits.foldl (fun acc ch => 10 * acc + (ch.toNat - 48)) 0

/-- The characters `0` to `9`. -/
def is_decimal_digit (ch : Char) : Bool :=
  decide (48 ≤ ch.toNat) && decide (ch.toNat ≤ 57)

/-! ## Concrete inputs used to exercise the theorems -/

/-- A configuration with the values the comments and scenarios name: a scan window of 8 words,
two ignored frames, six caught signals, 32-bit pointers. -/
def cfg32 : Config :=
  { FRAMES_MAX := 32, WORDS_TO_SCAN := 8, FRAMES_TO_IGNORE := 2, SIG_CATCH_COUNT := 6,
    SIG_NUMBER_MAX := 32, ptr_bytes := 4 }

/-- The frame buffer as `calloc` leaves it. -/
def zero_frames : unwind_struct := fun _ => ⟨0, ""⟩

/-- An application library mapped at `0x1000`, with no symbol information. -/
def app_info : Dl_info :=
  { dli_fname := some "/data/app/libapp.so", dli_fbase := 0x1000, dli_sname := none,
    dli_saddr := 0 }

/-- A process whose only valid return address on the stack is `0x2000`, at word 3 above the stack
pointer `0x7000`; the addresses `0x1000 .. 0x2fff` belong to the application library. -/
def proc_scan : Process :=
  { dladdr := fun a => if 0x1000 ≤ a ∧ a < 0x3000 then some app_info else none
    mem := fun a => if a = 0x700c then 0x2000 else 0 }

/-- A process with an empty stack window: every word is zero. -/
def proc_empty : Process :=
  { dladdr := fun a => if 0x1000 ≤ a ∧ a < 0x3000 then some app_info else none
    mem := fun _ => 0 }

/-- A `libunwind.so` whose cursor counts the steps taken: the frame after `n` steps is at
`0x1100 + 0x10 * n` in procedure `fn`, and `step` succeeds twice. -/
def libunwind_three : Libunwind Nat :=
  { init_local := some (fun _ => 0)
    step := fun n => (if n < 2 then 1 else 0, n + 1)
    get_reg_ip := fun n => 0x1100 + 0x10 * n
    get_proc_name := fun _ => ("fn", 4) }

/-- A `libunwind.so` that is present but whose `init_local` does not resolve. -/
def libunwind_unresolved : Libunwind Nat :=
  { init_local := none
    step := fun n => (0, n)
    get_reg_ip := fun _ => 0
    get_proc_name := fun _ => ("", 0) }

/-- A `libcorkscrew.so` whose backtrace has three frames `0x2100`, `0x2110`, `0x2120` (or as many
as `max_depth` allows), all in the application library, in the symbol `native_crash`. -/
def libcorkscrew_three : Libcorkscrew :=
  { entry_points := true
    unwind_backtrace_signal_arch := fun _ _ max_depth =>
      (min 3 max_depth, fun i => ⟨0x2100 + 0x10 * i, 0, 0⟩)
    get_backtrace_symbols := fun _ _ _ =>
      ⟨some "/data/app/libapp.so", some "native_crash"⟩ }

/-- The report buffer as `calloc` leaves it. -/
def zero_error : bugsnag_error :=
  { exception :=
      { message := "", error_class := "",
        stack_trace := fun _ => ⟨none, none, 0, 0, 0, 0, 0, false⟩, frames_used := 0 }
    error_store_path := "" }

/-- Only `libcorkscrew.so` can be opened. -/
def libs_corkscrew : Libraries Nat :=
  { libunwind := none, libcorkscrew := some libcorkscrew_three }

/-- A process whose application library has symbols: every address of `0x1000 .. 0x2fff` has the
nearest symbol `g` at `0x1100`. -/
def proc_symbols : Process :=
  { dladdr := fun a =>
      if 0x1000 ≤ a ∧ a < 0x3000 then
        some { dli_fname := some "/data/app/libapp.so", dli_fbase := 0x1000,
               dli_sname := some "g", dli_saddr := 0x1100 }
      else none
    mem := fun _ => 0 }

/-- A `libunwind.so` as `libunwind_three`, in a procedure with the one-character name `f`. -/
def libunwind_short_name : Libunwind Nat :=
  { libunwind_three with get_proc_name := fun _ => ("f", 4) }

/-- Only `libunwind.so` can be opened, and it names every procedure `f`. -/
def libs_short_name : Libraries Nat :=
  { libunwind := some libunwind_short_name, libcorkscrew := none }

/-- A C library that sets `SA_RESTORER` and its own trampoline, at `0x7f0000042520`, in every
action it installs, as glibc does on x86-64. -/
def libc_restorer : Libc :=
  { kernel_flags := fun act => act.sa_flags ||| SA_RESTORER
    kernel_restorer := fun _ => 0x7f0000042520 }

/-- A C library that passes the action to the kernel as it is. -/
def libc_plain : Libc :=
  { kernel_flags := fun act => act.sa_flags
    kernel_restorer := fun act => act.sa_restorer }

/-- Dispositions before installation that were set through `libc_restorer`: signal `n` has the
handler at address `16 * n`, with `SA_RESTORER` and the library's trampoline. -/
def prior_dispositions : Int → struct_sigaction :=
  fun n => ⟨16 * n.toNat, 0, SA_RESTORER, 0x7f0000042520⟩

/-- Dispositions of a process that never called `sigaction`: every field is zero. -/
def pristine_dispositions : Int → struct_sigaction := fun _ => zero_sigaction

/-- A report buffer left by an earlier crash: every frame slot still holds that crash's file,
method and offsets. -/
def stale_error : bugsnag_error :=
  { exception :=
      { message := "Fatal signal from native: 6 (SIGABRT), code 0"
        error_class := "Native Error: SIGABRT"
        stack_trace := fun _ =>
          ⟨some "/data/app/libold.so", some "old_method", 0x9000, 0x9100, 0x9120, 0x120, 99, true⟩
        frames_used := 5 }
    error_store_path := "" }

/-- A frame buffer left by an earlier crash: every slot still holds the name `old_crash_fn`. -/
def stale_frames : unwind_struct := fun _ => ⟨0x9120, "old_crash_fn"⟩

/-- A `libcorkscrew.so` as `libcorkscrew_three` that finds the map of each frame but no symbol
(`symbol_name` is `NULL`). -/
def libcorkscrew_unnamed : Libcorkscrew :=
  { libcorkscrew_three with
    get_backtrace_symbols := fun _ _ _ => ⟨some "/data/app/libapp.so", none⟩ }

/-- Only `libcorkscrew_unnamed` can be opened. -/
def libs_unnamed : Libraries Nat :=
  { libunwind := none, libcorkscrew := some libcorkscrew_unnamed }

/-- Both libraries can be opened, `libunwind.so` without a resolvable `init_local`. -/
def libs_unresolved : Libraries Nat :=
  { libunwind := some libunwind_unresolved, libcorkscrew := some libcorkscrew_three }

/-- A `libcorkscrew.so` whose backtrace has five frames; the fourth, at `0x5000`, lies outside
every mapped file of `proc_scan`. -/
def libcorkscrew_gap : Libcorkscrew :=
  { entry_points := true
    unwind_backtrace_signal_arch := fun _ _ max_depth =>
      (min 5 max_depth, fun i => ⟨if i = 3 then 0x5000 else 0x2100 + 0x10 * i, 0, 0⟩)
    get_backtrace_symbols := fun _ _ _ =>
      ⟨some "/data/app/libapp.so", some "native_crash"⟩ }

/-- Only `libcorkscrew_gap` can be opened. -/
def libs_gap : Libraries Nat :=
  { libunwind := none, libcorkscrew := some libcorkscrew_gap }

/-- A `libunwind.so` as `libunwind_three` whose first frame already has offset 0, the bottom of
the stack. -/
def libunwind_bottom : Libunwind Nat :=
  { libunwind_three with get_proc_name := fun _ => ("main", 0) }

/-- A `libcorkscrew.so` whose backtrace routine returns the size 40 whatever depth it is passed;
all its frames are in the application library. -/
def libcorkscrew_over : Libcorkscrew :=
  { entry_points := true
    unwind_backtrace_signal_arch := fun _ _ _ => (40, fun i => ⟨0x2100 + 0x10 * i, 0, 0⟩)
    get_backtrace_symbols := fun _ _ _ =>
      ⟨some "/data/app/libapp.so", some "native_crash"⟩ }

/-! ## The manual scanner -/

theorem look_for_next_frame_loop_none (cfg : Config) (p : Process) (base : Nat) :
    ∀ (n j : Nat),
      (∀ i, j ≤ i → i < j + n → is_valid_pc p (p.mem (stack_element cfg base i)) = false) →
      look_for_next_frame_loop cfg p base n j = none := by
  intro n
  induction n with
  | zero => intro j _; rfl
  | succ n ih =>
    intro j h
    have h0 := h j (Nat.le_refl j) (by omega)
    simp only [look_for_next_frame_loop, h0]
    exact ih (j + 1) (fun i h1 h2 => h i (by omega) (by omega))

theorem look_for_next_frame_loop_some (cfg : Config) (p : Process) (base k : Nat)
    (hk : is_valid_pc p (p.mem (stack_element cfg base k)) = true) :
    ∀ (n j : Nat), j ≤ k → k < j + n →
      (∀ i, j ≤ i → i < k → is_valid_pc p (p.mem (stack_element cfg base i)) = false) →
      look_for_next_frame_loop cfg p base n j
        = some (stack_element cfg base k, p.mem (stack_element cfg base k)) := by
  intro n
  induction n with
  | zero => intro j h1 h2; omega
  | succ n ih =>
    intro j h1 h2 h
    by_cases hjk : j = k
    · subst hjk
      simp [look_for_next_frame_loop, hk]
    · have h0 := h j (Nat.le_refl j) (by omega)
      simp only [look_for_next_frame_loop, h0]
      exact ih (j + 1) (by omega) (by omega) (fun i h3 h4 => h i (by omega) h4)

theorem stack_element_next (cfg : Config) (base k j : Nat) :
    stack_element cfg ((stack_element cfg base k + cfg.ptr_bytes) % ptr_mod cfg) j
      = stack_element cfg base (k + 1 + j) := by
  unfold stack_element
  rw [Nat.mod_add_mod, Nat.add_assoc, Nat.mod_add_mod]
  congr 1
  ring

theorem unwind_frame_loop_stop (cfg : Config) (p : Process) (max_depth : Int) (fuel base out : Nat)
    (unwind : unwind_struct) (h : look_for_next_frame cfg p base = none) :
    unwind_frame_loop cfg p max_depth fuel base out unwind = (out, unwind) := by
  cases fuel with
  | zero => rfl
  | succ fuel => simp only [unwind_frame_loop, h]; split <;> rfl

/-- The fuel of `unwind_frame_loop` is sufficient: with at least `max_depth - current_output_frame`
rounds the loop never stops for lack of fuel, one more round changes nothing. -/
theorem unwind_frame_loop_fuel (cfg : Config) (p : Process) (max_depth : Int) :
    ∀ (fuel base out : Nat) (unwind : unwind_struct), (max_depth - out).toNat ≤ fuel →
      unwind_frame_loop cfg p max_depth (fuel + 1) base out unwind
        = unwind_frame_loop cfg p max_depth fuel base out unwind := by
  intro fuel
  induction fuel with
  | zero =>
    intro base out unwind h
    have : ¬ ((out : Int) < max_depth) := by omega
    simp [unwind_frame_loop, this]
  | succ fuel ih =>
    intro base out unwind h
    rw [unwind_frame_loop, unwind_frame_loop.eq_2]
    split
    · split
      · exact ih _ _ _ (by push_cast; omega)
      · rfl
    · rfl

/-- The fuel `unwind_frame` gives its loop is enough: any larger amount gives the same result. -/
theorem unwind_frame_fuel_enough (cfg : Config) (p : Process) (unwind : unwind_struct)
    (max_depth : Int) (uc : ucontext_t) (extra : Nat) :
    unwind_frame_loop cfg p max_depth (max_depth.toNat + extra) (get_sp_from_ucontext uc)
        (unwind_frame_first p unwind uc).1 (unwind_frame_first p unwind uc).2
      = unwind_frame_loop cfg p max_depth max_depth.toNat (get_sp_from_ucontext uc)
          (unwind_frame_first p unwind uc).1 (unwind_frame_first p unwind uc).2 := by
  induction extra with
  | zero => rfl
  | succ extra ih =>
    rw [← Nat.add_assoc, unwind_frame_loop_fuel cfg p max_depth _ _ _ _ (by omega), ih]

/-- The count `unwind_frame_loop` returns is at most `max_depth` when it starts from a count that
is. -/
theorem unwind_frame_loop_le (cfg : Config) (p : Process) (max_depth : Int) :
    ∀ (fuel base out : Nat) (unwind : unwind_struct), (out : Int) ≤ max_depth →
      ((unwind_frame_loop cfg p max_depth fuel base out unwind).1 : Int) ≤ max_depth := by
  intro fuel
  induction fuel with
  | zero => intro base out unwind h; simpa [unwind_frame_loop] using h
  | succ fuel ih =>
    intro base out unwind h
    rw [unwind_frame_loop]
    split
    · split
      · exact ih _ _ _ (by push_cast; omega)
      · exact h
    · exact h

/-- C2: when the program counter `A` is valid, the first valid word of the window at the stack
pointer is `B` at word offset `k`, no word of the window that starts just past it is valid, and
`max_depth` is at least 2, `unwind_frame` returns 2 and the frames are `A` then `B`, both with an
empty method name. -/
theorem unwind_frame_two_frames (cfg : Config) (p : Process) (unwind : unwind_struct)
    (max_depth : Int) (uc : ucontext_t) (A B k : Nat)
    (hD : 2 ≤ max_depth)
    (hA : get_pc_from_ucontext uc = A)
    (hAv : is_valid_pc p A = true)
    (hk : k < cfg.WORDS_TO_SCAN)
    (hB : p.mem (stack_element cfg (get_sp_from_ucontext uc) k) = B)
    (hBv : is_valid_pc p B = true)
    (hfirst : ∀ j, j < k →
      is_valid_pc p (p.mem (stack_element cfg (get_sp_from_ucontext uc) j)) = false)
    (hnext : ∀ j, j < cfg.WORDS_TO_SCAN →
      is_valid_pc p (p.mem (stack_element cfg (get_sp_from_ucontext uc) (k + 1 + j))) = false) :
    (unwind_frame cfg p unwind max_depth uc).1 = 2
      ∧ (unwind_frame cfg p unwind max_depth uc).2 0 = ⟨A, ""⟩
      ∧ (unwind_frame cfg p unwind max_depth uc).2 1 = ⟨B, ""⟩ := by
  obtain ⟨n, hn⟩ : ∃ n, max_depth.toNat = n + 1 := ⟨max_depth.toNat - 1, by omega⟩
  have hfound : look_for_next_frame cfg p (get_sp_from_ucontext uc)
      = some (stack_element cfg (get_sp_from_ucontext uc) k, B) := by
    have := look_for_next_frame_loop_some cfg p (get_sp_from_ucontext uc) k (by rw [hB]; exact hBv)
      cfg.WORDS_TO_SCAN 0 (Nat.zero_le k) (by omega) (fun i _ h => hfirst i h)
    rw [hB] at this
    exact this
  have hstop : look_for_next_frame cfg p
      ((stack_element cfg (get_sp_from_ucontext uc) k + cfg.ptr_bytes) % ptr_mod cfg) = none := by
    apply look_for_next_frame_loop_none
    intro i _ hi
    rw [stack_element_next]
    exact hnext i (by omega)
  have hlt : ((1 : Nat) : Int) < max_depth := by omega
  have hrun : unwind_frame cfg p unwind max_depth uc
      = (2, set_frame (set_frame unwind 0 ⟨A, ""⟩) 1 ⟨B, ""⟩) := by
    unfold unwind_frame unwind_frame_first
    simp only [hA, hAv, if_true, hn]
    rw [unwind_frame_loop]
    simp only [hlt, if_true, hfound]
    rw [unwind_frame_loop_stop _ _ _ _ _ _ _ hstop]
    simp
  rw [hrun]
  simp [set_frame]

/-- Scenario 1 of the specification on `proc_scan`: window 8, `k = 3`. -/
theorem unwind_frame_two_frames_witness :
    (unwind_frame cfg32 proc_scan zero_frames 32 ⟨0x1000, 0x7000⟩).1 = 2
      ∧ (unwind_frame cfg32 proc_scan zero_frames 32 ⟨0x1000, 0x7000⟩).2 0 = ⟨0x1000, ""⟩
      ∧ (unwind_frame cfg32 proc_scan zero_frames 32 ⟨0x1000, 0x7000⟩).2 1 = ⟨0x2000, ""⟩ :=
  unwind_frame_two_frames cfg32 proc_scan zero_frames 32 ⟨0x1000, 0x7000⟩ 0x1000 0x2000 3
    (by decide) rfl (by decide) (by decide) (by decide) (by decide) (by decide) (by decide)

/-- C3: when no word of the window at the stack pointer is valid, `unwind_frame` returns exactly 1
and frame 0 holds the program counter, for every `max_depth` and whether or not the program
counter is valid. -/
theorem unwind_frame_empty_window (cfg : Config) (p : Process) (unwind : unwind_struct)
    (max_depth : Int) (uc : ucontext_t)
    (hnone : ∀ j, j < cfg.WORDS_TO_SCAN →
      is_valid_pc p (p.mem (stack_element cfg (get_sp_from_ucontext uc) j)) = false) :
    (unwind_frame cfg p unwind max_depth uc).1 = 1
      ∧ ((unwind_frame cfg p unwind max_depth uc).2 0).frame_pointer
          = get_pc_from_ucontext uc := by
  have hstop : look_for_next_frame cfg p (get_sp_from_ucontext uc) = none := by
    apply look_for_next_frame_loop_none
    intro i _ hi
    exact hnone i (by omega)
  simp only [unwind_frame, unwind_frame_loop_stop _ _ _ _ _ _ _ hstop]
  unfold unwind_frame_first
  by_cases hv : is_valid_pc p (get_pc_from_ucontext uc) = true
  · simp [hv, set_frame]
  · simp [hv, unwind_basic, set_frame]

/-- Scenario 2 of the specification on `proc_empty`, with a valid and with an invalid program
counter. -/
theorem unwind_frame_empty_window_witness :
    ((unwind_frame cfg32 proc_empty zero_frames 32 ⟨0x1000, 0x7000⟩).1 = 1
      ∧ ((unwind_frame cfg32 proc_empty zero_frames 32 ⟨0x1000, 0x7000⟩).2 0).frame_pointer
          = 0x1000)
    ∧ ((unwind_frame cfg32 proc_empty zero_frames 32 ⟨0x5000, 0x7000⟩).1 = 1
      ∧ ((unwind_frame cfg32 proc_empty zero_frames 32 ⟨0x5000, 0x7000⟩).2 0).frame_pointer
          = 0x5000) :=
  ⟨unwind_frame_empty_window cfg32 proc_empty zero_frames 32 ⟨0x1000, 0x7000⟩ (by decide),
   unwind_frame_empty_window cfg32 proc_empty zero_frames 32 ⟨0x5000, 0x7000⟩ (by decide)⟩

/-! ## Bounds on the frame count -/

theorem unwind_frame_le (cfg : Config) (p : Process) (unwind : unwind_struct) (max_depth : Int)
    (uc : ucontext_t) (hD : 1 ≤ max_depth) :
    (unwind_frame cfg p unwind max_depth uc).1 ≤ max_depth := by
  have hfirst : ((unwind_frame_first p unwind uc).1 : Int) ≤ max_depth := by
    simp only [unwind_frame_first]
    split <;> simp <;> omega
  have hloop := unwind_frame_loop_le cfg p max_depth max_depth.toNat (get_sp_from_ucontext uc)
    (unwind_frame_first p unwind uc).1 (unwind_frame_first p unwind uc).2 hfirst
  simp only [unwind_frame]
  split
  · exact hloop
  · simpa [unwind_basic] using hD

theorem unwind_libunwind_body_inr {σ : Type} (lib : Libunwind σ) (max_depth : Int) (cursor : σ)
    (count : Nat) (unwind : unwind_struct) (c : σ) (n : Nat) (u : unwind_struct)
    (h : unwind_libunwind_body lib max_depth cursor count unwind = Sum.inr (c, n, u)) :
    n = count + 1 ∧ (n : Int) < max_depth := by
  simp only [unwind_libunwind_body] at h
  split_ifs at h with h1 h2
  simp only [Sum.inr.injEq, Prod.mk.injEq] at h
  obtain ⟨_, hn, _⟩ := h
  subst hn
  exact ⟨rfl, h2.2⟩

theorem unwind_libunwind_body_inl {σ : Type} (lib : Libunwind σ) (max_depth : Int) (cursor : σ)
    (count : Nat) (unwind : unwind_struct) (r : Nat × unwind_struct)
    (h : unwind_libunwind_body lib max_depth cursor count unwind = Sum.inl r) :
    r.1 ≤ count + 1 := by
  simp only [unwind_libunwind_body] at h
  split_ifs at h with h1 h2
  all_goals simp only [Sum.inl.injEq] at h
  all_goals subst h
  all_goals simp

/-- The fuel of `unwind_libunwind_loop` is sufficient: with at least `max_depth - count - 1` rounds
the loop never stops for lack of fuel, one more round changes nothing. -/
theorem unwind_libunwind_loop_fuel {σ : Type} (lib : Libunwind σ) (max_depth : Int) :
    ∀ (fuel : Nat) (cursor : σ) (count : Nat) (unwind : unwind_struct),
      (max_depth - count - 1).toNat ≤ fuel →
      unwind_libunwind_loop lib max_depth (fuel + 1) cursor count unwind
        = unwind_libunwind_loop lib max_depth fuel cursor count unwind := by
  intro fuel
  induction fuel with
  | zero =>
    intro cursor count unwind h
    simp only [unwind_libunwind_loop]
    cases hb : unwind_libunwind_body lib max_depth cursor count unwind with
    | inl r => rfl
    | inr x =>
      obtain ⟨c, n, u⟩ := x
      have := unwind_libunwind_body_inr lib max_depth cursor count unwind c n u hb
      omega
  | succ fuel ih =>
    intro cursor count unwind h
    rw [unwind_libunwind_loop.eq_2, unwind_libunwind_loop.eq_2]
    cases hb : unwind_libunwind_body lib max_depth cursor count unwind with
    | inl r => rfl
    | inr x =>
      obtain ⟨c, n, u⟩ := x
      have := unwind_libunwind_body_inr lib max_depth cursor count unwind c n u hb
      exact ih c n u (by omega)

/-- The fuel `unwind_libunwind` gives its loop is enough: any larger amount gives the same
result. -/
theorem unwind_libunwind_fuel_enough {σ : Type} (lib : Libunwind σ) (max_depth : Int) (cursor : σ)
    (unwind : unwind_struct) (extra : Nat) :
    unwind_libunwind_loop lib max_depth (max_depth.toNat + extra) cursor 0 unwind
      = unwind_libunwind_loop lib max_depth max_depth.toNat cursor 0 unwind := by
  induction extra with
  | zero => rfl
  | succ extra ih =>
    rw [← Nat.add_assoc, unwind_libunwind_loop_fuel lib max_depth _ _ _ _ (by omega), ih]

theorem unwind_libunwind_loop_le {σ : Type} (lib : Libunwind σ) (max_depth : Int) :
    ∀ (fuel : Nat) (cursor : σ) (count : Nat) (unwind : unwind_struct),
      (count : Int) < max_depth →
      ((unwind_libunwind_loop lib max_depth fuel cursor count unwind).1 : Int) ≤ max_depth := by
  intro fuel
  induction fuel with
  | zero =>
    intro cursor count unwind h
    rw [unwind_libunwind_loop]
    cases hb : unwind_libunwind_body lib max_depth cursor count unwind with
    | inl r =>
      have := unwind_libunwind_body_inl lib max_depth cursor count unwind r hb
      simp only
      omega
    | inr x =>
      obtain ⟨c, n, u⟩ := x
      have := unwind_libunwind_body_inr lib max_depth cursor count unwind c n u hb
      simp only
      omega
  | succ fuel ih =>
    intro cursor count unwind h
    rw [unwind_libunwind_loop]
    cases hb : unwind_libunwind_body lib max_depth cursor count unwind with
    | inl r =>
      have := unwind_libunwind_body_inl lib max_depth cursor count unwind r hb
      simp only
      omega
    | inr x =>
      obtain ⟨c, n, u⟩ := x
      have := unwind_libunwind_body_inr lib max_depth cursor count unwind c n u hb
      exact ih c n u this.2

/-! ## The prefix tables -/

theorem starts_with_iff (pre s : String) :
    starts_with pre (some s) = true ↔ pre.data <+: s.data := by
  have hpre : pre.length = pre.data.length := rfl
  have hs : s.length = s.data.length := rfl
  simp only [starts_with, strncmp_zero]
  rw [List.prefix_iff_eq_take, hpre, hs, List.take_length]
  by_cases h : s.data.length < pre.data.length
  · simp only [h, if_true]
    constructor
    · intro h1; cases h1
    · intro h1
      have := congrArg List.length h1
      rw [List.length_take] at this
      omega
  · simp only [h, if_false, beq_iff_eq]

theorem starts_with_none (pre : String) : starts_with pre none = false := rfl

theorem is_system_method_iff (method : Option String) :
    is_system_method method = true ↔ ∃ s, method = some s ∧ "__aeabi_".data <+: s.data := by
  cases method with
  | none => simp [is_system_method, starts_with_none]
  | some s => simp [is_system_method, starts_with_iff]

theorem is_system_file_iff (file : Option String) :
    is_system_file file = true ↔
      ∃ s, file = some s ∧
        ("/system/".data <+: s.data ∨ "libc.so".data <+: s.data ∨ "libdvm.so".data <+: s.data
          ∨ "libcutils.so".data <+: s.data ∨ "[heap]".data <+: s.data) := by
  cases file with
  | none => simp [is_system_file, starts_with_none]
  | some s => simp [is_system_file, starts_with_iff, or_assoc]

/-! ## The report builder -/

/-- Every frame slot below `frames_used` was written by `signal_handler_frame`, so a property of
all frames that function builds holds of every slot the loop leaves below `frames_used`. -/
theorem signal_handler_step_inv (cfg : Config) (p : Process) (g_native_code : unwind_struct)
    (P : bugsnag_stack_frame → Prop)
    (hP : ∀ old uf info, P (signal_handler_frame cfg old uf info)) :
    ∀ (l : List Nat) (st : (Nat → bugsnag_stack_frame) × Nat),
      (∀ k, k < st.2 → P (st.1 k)) →
      ∀ k, k < (l.foldl (signal_handler_step cfg p g_native_code) st).2 →
        P ((l.foldl (signal_handler_step cfg p g_native_code) st).1 k) := by
  intro l
  induction l with
  | nil => intro st h k hk; exact h k hk
  | cons i l ih =>
    intro st h
    rw [List.foldl_cons]
    apply ih
    intro k hk
    unfold signal_handler_step at hk ⊢
    cases hd : p.dladdr (g_native_code (i + cfg.FRAMES_TO_IGNORE)).frame_pointer with
    | none =>
      simp only [hd] at hk ⊢
      exact h k hk
    | some info =>
      simp only [hd] at hk ⊢
      by_cases hks : k = st.2
      · simp only [hks, if_true]; exact hP _ _ _
      · simp only [hks, if_false]; exact h k (by omega)

/-- The frames of the report satisfy every property of all frames `signal_handler_frame`
builds. -/
theorem signal_handler_frames_inv {σ : Type} (cfg : Config) (p : Process) (libs : Libraries σ)
    (g_native_code : unwind_struct) (g_bugsnag_error : bugsnag_error) (si : siginfo)
    (uc : ucontext_t) (P : bugsnag_stack_frame → Prop)
    (hP : ∀ old uf info, P (signal_handler_frame cfg old uf info)) (k : Nat)
    (hk : (k : Int)
      < (signal_handler cfg p libs g_native_code g_bugsnag_error si uc).2.exception.frames_used) :
    P ((signal_handler cfg p libs g_native_code g_bugsnag_error si uc).2.exception.stack_trace
      k) := by
  simp only [signal_handler] at hk ⊢
  split at hk
  · rename_i hpos
    simp only [hpos, if_true]
    exact signal_handler_step_inv cfg p _ P hP _ _ (fun k hk => absurd hk (Nat.not_lt_zero k)) k
      (by exact_mod_cast hk)
  · simp at hk
    omega

theorem signal_handler_frame_in_project (cfg : Config) (old : bugsnag_stack_frame)
    (uf : unwind_struct_frame) (info : Dl_info) :
    (signal_handler_frame cfg old uf info).in_project
      = !(is_system_file (signal_handler_frame cfg old uf info).file
          || is_system_method (signal_handler_frame cfg old uf info).method) := by
  simp only [signal_handler_frame]
  split <;> simp_all

/-- C4: for every frame the handler writes, `in_project` is the negation of
`is_system_file file || is_system_method method` on the frame's recorded fields;
`is_system_file` holds exactly of a present path that starts with one of the five prefixes and
`is_system_method` exactly of a present name that starts with `__aeabi_`; so a file under
`/system/` gives `in_project = false` whatever the method, and two written frames (of any two
runs) with equal file and method have equal flags. -/
theorem signal_handler_in_project {σ : Type} (cfg : Config) (p : Process) (libs : Libraries σ)
    (g_native_code : unwind_struct) (g_bugsnag_error : bugsnag_error) (si : siginfo)
    (uc : ucontext_t) (k : Nat)
    (hk : (k : Int)
      < (signal_handler cfg p libs g_native_code g_bugsnag_error si uc).2.exception.frames_used)
    (cfg2 : Config) (p2 : Process) (libs2 : Libraries σ)
    (g_native_code2 : unwind_struct) (g_bugsnag_error2 : bugsnag_error) (si2 : siginfo)
    (uc2 : ucontext_t) (k2 : Nat)
    (hk2 : (k2 : Int)
      < (signal_handler cfg2 p2 libs2 g_native_code2 g_bugsnag_error2 si2
          uc2).2.exception.frames_used) :
    let f := (signal_handler cfg p libs g_native_code g_bugsnag_error si
      uc).2.exception.stack_trace k
    let f2 := (signal_handler cfg2 p2 libs2 g_native_code2 g_bugsnag_error2 si2
      uc2).2.exception.stack_trace k2
    f.in_project = !(is_system_file f.file || is_system_method f.method)
      ∧ (∀ file, is_system_file file = true ↔
          ∃ s, file = some s ∧
            ("/system/".data <+: s.data ∨ "libc.so".data <+: s.data
              ∨ "libdvm.so".data <+: s.data ∨ "libcutils.so".data <+: s.data
              ∨ "[heap]".data <+: s.data))
      ∧ (∀ method, is_system_method method = true ↔
          ∃ s, method = some s ∧ "__aeabi_".data <+: s.data)
      ∧ (∀ s, f.file = some s → "/system/".data <+: s.data → f.in_project = false)
      ∧ (f.file = f2.file → f.method = f2.method → f.in_project = f2.in_project) := by
  intro f f2
  have h1 : f.in_project = !(is_system_file f.file || is_system_method f.method) :=
    signal_handler_frames_inv cfg p libs g_native_code g_bugsnag_error si uc
      (fun f => f.in_project = !(is_system_file f.file || is_system_method f.method))
      (signal_handler_frame_in_project cfg) k hk
  have h2 : f2.in_project = !(is_system_file f2.file || is_system_method f2.method) :=
    signal_handler_frames_inv cfg2 p2 libs2 g_native_code2 g_bugsnag_error2 si2 uc2
      (fun f => f.in_project = !(is_system_file f.file || is_system_method f.method))
      (signal_handler_frame_in_project cfg2) k2 hk2
  refine ⟨h1, is_system_file_iff, is_system_method_iff, ?_, ?_⟩
  · intro s hs hpre
    have : is_system_file f.file = true :=
      (is_system_file_iff f.file).2 ⟨s, hs, Or.inl hpre⟩
    rw [h1, this]
    rfl
  · intro hf hm
    rw [h1, h2, hf, hm]

/-- C4 on a crash unwound by `libcorkscrew_three`: the one classified frame is in the
application library and is flagged as the formula says. -/
theorem signal_handler_in_project_witness :
    (0 : Int) < (signal_handler cfg32 proc_scan libs_corkscrew zero_frames zero_error ⟨11, 1⟩
        ⟨0x1000, 0x7000⟩).2.exception.frames_used
      ∧ ((signal_handler cfg32 proc_scan libs_corkscrew zero_frames zero_error ⟨11, 1⟩
          ⟨0x1000, 0x7000⟩).2.exception.stack_trace 0).in_project
        = !(is_system_file ((signal_handler cfg32 proc_scan libs_corkscrew zero_frames zero_error
              ⟨11, 1⟩ ⟨0x1000, 0x7000⟩).2.exception.stack_trace 0).file
            || is_system_method ((signal_handler cfg32 proc_scan libs_corkscrew zero_frames
              zero_error ⟨11, 1⟩ ⟨0x1000, 0x7000⟩).2.exception.stack_trace 0).method) :=
  ⟨by decide,
   (signal_handler_in_project cfg32 proc_scan libs_corkscrew zero_frames zero_error ⟨11, 1⟩
      ⟨0x1000, 0x7000⟩ 0 (by decide)
      cfg32 proc_scan libs_corkscrew zero_frames zero_error ⟨11, 1⟩ ⟨0x1000, 0x7000⟩ 0
      (by decide)).1⟩

/-- C5 at a one-character name: the unwinder stored the non-empty name `f` for the raw frame at
index 2, the frame is classified, and its method is the symbol `g` of `dladdr`, not `f`: the test
`strlen(unwind_frame->method) > 1` passes over every name of length 1. -/
theorem signal_handler_one_char_method :
    ((signal_handler cfg32 proc_symbols libs_short_name zero_frames zero_error ⟨11, 1⟩
        ⟨0x1000, 0x7000⟩).1 2).method = "f"
      ∧ (signal_handler cfg32 proc_symbols libs_short_name zero_frames zero_error ⟨11, 1⟩
          ⟨0x1000, 0x7000⟩).2.exception.frames_used = 1
      ∧ ((signal_handler cfg32 proc_symbols libs_short_name zero_frames zero_error ⟨11, 1⟩
          ⟨0x1000, 0x7000⟩).2.exception.stack_trace 0).frame_address = 0x1120
      ∧ ((signal_handler cfg32 proc_symbols libs_short_name zero_frames zero_error ⟨11, 1⟩
          ⟨0x1000, 0x7000⟩).2.exception.stack_trace 0).method = some "g" := by
  decide

theorem digitChar_decimal :
    ∀ m, m < 10 → is_decimal_digit (Nat.digitChar m) = true
      ∧ (Nat.digitChar m).toNat - 48 = m ∧ (Nat.digitChar m = '0' → m = 0) := by
  decide

theorem decimal_value_snoc (pre : List Char) (ch : Char) :
    decimal_value (pre ++ [ch]) = 10 * decimal_value pre + (ch.toNat - 48) := by
  simp [decimal_value, List.foldl_append]

/-- The digit loop behind `Nat.repr` puts in front of `ds` a non-empty string of decimal digits,
without a leading zero unless it is the single digit 0, that denotes `n`. -/
theorem toDigitsCore_decimal :
    ∀ (fuel n : Nat) (ds : List Char), n < fuel →
      ∃ pre, Nat.toDigitsCore 10 fuel n ds = pre ++ ds ∧ pre ≠ []
        ∧ (∀ ch ∈ pre, is_decimal_digit ch = true)
        ∧ (pre.head? = some '0' → pre = ['0'])
        ∧ decimal_value pre = n := by
  intro fuel
  induction fuel with
  | zero => intro n ds h; omega
  | succ fuel ih =>
    intro n ds h
    obtain ⟨hd1, hd2, hd3⟩ := digitChar_decimal (n % 10) (Nat.mod_lt n (by decide))
    rw [Nat.toDigitsCore]
    by_cases h0 : n / 10 = 0
    · have hn : n % 10 = n := by omega
      simp only [h0, if_true]
      refine ⟨[Nat.digitChar (n % 10)], rfl, by simp, ?_, ?_, ?_⟩
      · intro ch hch
        rw [List.mem_singleton] at hch
        rw [hch]; exact hd1
      · intro hh
        simp only [List.head?_cons, Option.some.injEq] at hh
        rw [hh]
      · simp only [decimal_value, List.foldl_cons, List.foldl_nil]
        omega
    · simp only [h0, if_false]
      obtain ⟨pre, hpre, hne, hall, hhead, hval⟩ := ih (n / 10) (Nat.digitChar (n % 10) :: ds)
        (by omega)
      refine ⟨pre ++ [Nat.digitChar (n % 10)], by rw [hpre]; simp, by simp, ?_, ?_, ?_⟩
      · intro ch hch
        rw [List.mem_append, List.mem_singleton] at hch
        rcases hch with hch | hch
        · exact hall ch hch
        · rw [hch]; exact hd1
      · intro hh
        exfalso
        have hh2 : pre.head? = some '0' := by
          cases pre with
          | nil => exact absurd rfl hne
          | cons a t => simpa using hh
        have := hhead hh2
        rw [this] at hval
        simp [decimal_value] at hval
        omega
      · rw [decimal_value_snoc, hval]
        omega

/-- The conversion `%d` writes every integer in decimal: a minus sign exactly when it is negative,
then a non-empty string of decimal digits without a leading zero (the single digit 0 for zero)
that denotes its absolute value. -/
theorem sprintf_d_decimal (n : Int) :
    ∃ digits : List Char,
      (sprintf_d n).data = (if n < 0 then ['-'] else []) ++ digits
        ∧ digits ≠ []
        ∧ (∀ ch ∈ digits, is_decimal_digit ch = true)
        ∧ (digits.head? = some '0' → digits = ['0'])
        ∧ decimal_value digits = n.natAbs := by
  obtain ⟨pre, hpre, hne, hall, hhead, hval⟩ :=
    toDigitsCore_decimal (n.natAbs + 1) n.natAbs [] (Nat.lt_succ_self _)
  rw [List.append_nil] at hpre
  have hrepr : (Nat.repr n.natAbs).data = pre := by
    simp only [Nat.repr, Nat.toDigits, List.asString]
    exact hpre
  refine ⟨pre, ?_, hne, hall, hhead, hval⟩
  unfold sprintf_d
  split
  · show ("-" ++ Nat.repr n.natAbs).data = [(Char.ofNat 45)] ++ pre
    rw [String.data_append, hrepr]
  · show (Nat.repr n.natAbs).data = [] ++ pre
    rw [hrepr]
    exact rfl

/-- C7: for every signal number and code of the `siginfo`, whatever the other inputs, the handler
sets the message to `Fatal signal from native: <s> (<name>), code <c>` and the class to
`Native Error: <name>`, with `%d` for `s` and `c` and `name = get_signal_name s`, which is the
name of each of the six signals and `UNKNOWN` for every other number; for signal 11 with code 1
these are the two strings of the specification. "In decimal" holds for every integer: `%d` writes
a minus sign exactly for a negative number, then its absolute value as a non-empty string of the
digits 0 to 9 without a leading zero (`decimal_value` reads it back). -/
theorem signal_handler_message {σ : Type} (cfg : Config) (p : Process) (libs : Libraries σ)
    (g_native_code : unwind_struct) (g_bugsnag_error : bugsnag_error) (uc : ucontext_t)
    (s c : Int) :
    (signal_handler cfg p libs g_native_code g_bugsnag_error ⟨s, c⟩ uc).2.exception.message
        = "Fatal signal from native: " ++ sprintf_d s ++ " (" ++ get_signal_name s
            ++ "), code " ++ sprintf_d c
      ∧ (signal_handler cfg p libs g_native_code g_bugsnag_error ⟨s, c⟩ uc).2.exception.error_class
        = "Native Error: " ++ get_signal_name s
      ∧ get_signal_name SIGILL = "SIGILL" ∧ get_signal_name SIGTRAP = "SIGTRAP"
      ∧ get_signal_name SIGABRT = "SIGABRT" ∧ get_signal_name SIGBUS = "SIGBUS"
      ∧ get_signal_name SIGFPE = "SIGFPE" ∧ get_signal_name SIGSEGV = "SIGSEGV"
      ∧ (s ≠ SIGILL ∧ s ≠ SIGTRAP ∧ s ≠ SIGABRT ∧ s ≠ SIGBUS ∧ s ≠ SIGFPE ∧ s ≠ SIGSEGV →
          get_signal_name s = "UNKNOWN")
      ∧ SIGSEGV = 11
      ∧ (signal_handler cfg p libs g_native_code g_bugsnag_error ⟨11, 1⟩ uc).2.exception.message
        = "Fatal signal from native: 11 (SIGSEGV), code 1"
      ∧ (signal_handler cfg p libs g_native_code g_bugsnag_error ⟨11, 1⟩
          uc).2.exception.error_class = "Native Error: SIGSEGV"
      ∧ sprintf_d 11 = "11" ∧ sprintf_d 1 = "1" ∧ sprintf_d (-6) = "-6"
      ∧ sprintf_d 0 = "0" ∧ sprintf_d 128 = "128"
      ∧ (∀ n : Int, ∃ digits : List Char,
          (sprintf_d n).data = (if n < 0 then ['-'] else []) ++ digits
            ∧ digits ≠ []
            ∧ (∀ ch ∈ digits, is_decimal_digit ch = true)
            ∧ (digits.head? = some '0' → digits = ['0'])
            ∧ decimal_value digits = n.natAbs) := by
  refine ⟨rfl, rfl, by decide, by decide, by decide, by decide, by decide, by decide, ?_,
    rfl, ?_, ?_, by decide, by decide, by decide, by decide, by decide, sprintf_d_decimal⟩
  · rintro ⟨h1, h2, h3, h4, h5, h6⟩
    simp [get_signal_name, h1, h2, h3, h4, h5, h6]
  · show "Fatal signal from native: " ++ sprintf_d 11 ++ " (" ++ get_signal_name 11
      ++ "), code " ++ sprintf_d 1 = _
    decide
  · show "Native Error: " ++ get_signal_name 11 = _
    decide

/-! ## Installing and removing the handler -/

theorem native_sig_catch_tail (j : Nat) : native_sig_catch (6 + j) = 0 := by
  unfold native_sig_catch
  rw [List.getD_eq_default]
  simp

theorem sigaction_install_zero (cfg : Config) (libc : Libc) (g : struct_sigaction)
    (s : Signals) : sigaction_install cfg libc g s 0 = s := by
  simp [sigaction_install, sigaction_accepts]

theorem sigaction_restore_zero (cfg : Config) (libc : Libc) (s : Signals) :
    sigaction_restore cfg libc s 0 = s := by
  simp [sigaction_restore, sigaction_accepts]

theorem foldl_install_tail (cfg : Config) (libc : Libc) (g : struct_sigaction) (l : List Nat)
    (s : Signals) :
    (l.map (fun j => 6 + j)).foldl
      (fun s i => sigaction_install cfg libc g s (native_sig_catch i)) s = s := by
  induction l generalizing s with
  | nil => rfl
  | cons j l ih =>
    simp only [List.map_cons, List.foldl_cons, native_sig_catch_tail, sigaction_install_zero]
    exact ih s

theorem foldl_restore_tail (cfg : Config) (libc : Libc) (l : List Nat) (s : Signals) :
    (l.map (fun j => 6 + j)).foldl
      (fun s i => sigaction_restore cfg libc s (native_sig_catch i)) s = s := by
  induction l generalizing s with
  | nil => rfl
  | cons j l ih =>
    simp only [List.map_cons, List.foldl_cons, native_sig_catch_tail, sigaction_restore_zero]
    exact ih s

theorem range_split_six (n : Nat) (h : 6 ≤ n) :
    List.range n = [0, 1, 2, 3, 4, 5] ++ (List.range (n - 6)).map (fun j => 6 + j) := by
  have h1 : n = 6 + (n - 6) := by omega
  conv_lhs => rw [h1, List.range_add]
  rfl

/-- The loop of `setupBugsnag` is its first six rounds. -/
theorem setupBugsnag_six (cfg : Config) (libc : Libc) (handler : Nat)
    (d : Int → struct_sigaction) (h : 6 ≤ cfg.SIG_CATCH_COUNT) :
    setupBugsnag cfg libc handler d
      = [SIGILL, SIGTRAP, SIGABRT, SIGBUS, SIGFPE, SIGSEGV].foldl
          (sigaction_install cfg libc (handler_action handler))
          { disposition := d, g_sigaction_old := fun _ => zero_sigaction } := by
  unfold setupBugsnag
  simp only [range_split_six _ h, List.foldl_append, foldl_install_tail]
  rfl

/-- The loop of `tearDownBugsnag` is its first six rounds. -/
theorem tearDownBugsnag_six (cfg : Config) (libc : Libc) (s : Signals)
    (h : 6 ≤ cfg.SIG_CATCH_COUNT) :
    tearDownBugsnag cfg libc s
      = [SIGILL, SIGTRAP, SIGABRT, SIGBUS, SIGFPE, SIGSEGV].foldl
          (sigaction_restore cfg libc) s := by
  unfold tearDownBugsnag
  simp only [range_split_six _ h, List.foldl_append, foldl_restore_tail]
  rfl

theorem sigaction_accepts_caught :
    sigaction_accepts SIGILL = true ∧ sigaction_accepts SIGTRAP = true
      ∧ sigaction_accepts SIGABRT = true ∧ sigaction_accepts SIGBUS = true
      ∧ sigaction_accepts SIGFPE = true ∧ sigaction_accepts SIGSEGV = true := by
  decide

/-- The signal numbers `native_sig_catch` lists. -/
theorem mem_caught_iff (n : Int) :
    n ∈ [SIGILL, SIGTRAP, SIGABRT, SIGBUS, SIGFPE, SIGSEGV]
      ↔ n = 4 ∨ n = 5 ∨ n = 6 ∨ n = 7 ∨ n = 8 ∨ n = 11 := by
  simp [SIGILL, SIGTRAP, SIGABRT, SIGBUS, SIGFPE, SIGSEGV]

theorem install_six_disposition (cfg : Config) (libc : Libc) (g : struct_sigaction)
    (d : Int → struct_sigaction) (n : Int) :
    ([SIGILL, SIGTRAP, SIGABRT, SIGBUS, SIGFPE, SIGSEGV].foldl (sigaction_install cfg libc g)
        { disposition := d, g_sigaction_old := fun _ => zero_sigaction }).disposition n
      = if n = 4 ∨ n = 5 ∨ n = 6 ∨ n = 7 ∨ n = 8 ∨ n = 11 then kernel_action libc g
        else d n := by
  obtain ⟨h1, h2, h3, h4, h5, h6⟩ := sigaction_accepts_caught
  simp only [List.foldl_cons, List.foldl_nil, sigaction_install, h1, h2, h3, h4, h5, h6, if_true]
  simp only [SIGILL, SIGTRAP, SIGABRT, SIGBUS, SIGFPE, SIGSEGV]
  split_ifs <;> first | rfl | omega

theorem install_six_old (cfg : Config) (libc : Libc) (g : struct_sigaction)
    (d : Int → struct_sigaction) (hmax : 11 < cfg.SIG_NUMBER_MAX) (n : Int) :
    ([SIGILL, SIGTRAP, SIGABRT, SIGBUS, SIGFPE, SIGSEGV].foldl (sigaction_install cfg libc g)
        { disposition := d, g_sigaction_old := fun _ => zero_sigaction }).g_sigaction_old n
      = if n = 4 ∨ n = 5 ∨ n = 6 ∨ n = 7 ∨ n = 8 ∨ n = 11 then d n else zero_sigaction := by
  obtain ⟨h1, h2, h3, h4, h5, h6⟩ := sigaction_accepts_caught
  have hm : (11 : Int) < (cfg.SIG_NUMBER_MAX : Int) := by exact_mod_cast hmax
  simp only [List.foldl_cons, List.foldl_nil, sigaction_install, h1, h2, h3, h4, h5, h6, if_true]
  simp only [SIGILL, SIGTRAP, SIGABRT, SIGBUS, SIGFPE, SIGSEGV]
  split_ifs <;> first | rfl | omega | simp_all

theorem restore_six_disposition (cfg : Config) (libc : Libc) (s : Signals) (n : Int) :
    ([SIGILL, SIGTRAP, SIGABRT, SIGBUS, SIGFPE, SIGSEGV].foldl (sigaction_restore cfg libc)
        s).disposition n
      = if n = 4 ∨ n = 5 ∨ n = 6 ∨ n = 7 ∨ n = 8 ∨ n = 11
        then kernel_action libc (old_at cfg s n)
        else s.disposition n := by
  obtain ⟨h1, h2, h3, h4, h5, h6⟩ := sigaction_accepts_caught
  simp only [List.foldl_cons, List.foldl_nil, sigaction_restore, h1, h2, h3, h4, h5, h6, if_true,
    old_at]
  simp only [SIGILL, SIGTRAP, SIGABRT, SIGBUS, SIGFPE, SIGSEGV]
  split_ifs <;> first | rfl | omega | simp_all

/-- C8, as the code and the C library have it: after `setupBugsnag` each of the six caught
signals has the handler action as the library's `sigaction` passes it to the kernel, and
`g_sigaction_old` holds exactly the disposition the signal had before; after `tearDownBugsnag`
each of the six has that recorded disposition as the library passes it to the kernel, so with the
handler and the mask it had before; the disposition of any other signal is changed by neither
function; and when the prior dispositions of the six signals are already in the form the library
installs, the round trip leaves the disposition of every signal number exactly as it was. The
constants of the header are taken to cover the six signals: `SIG_CATCH_COUNT >= 6` and
`SIG_NUMBER_MAX > SIGSEGV`. -/
theorem setup_teardown_round_trip (cfg : Config) (libc : Libc) (handler : Nat)
    (d : Int → struct_sigaction)
    (hcount : 6 ≤ cfg.SIG_CATCH_COUNT) (hmax : 11 < cfg.SIG_NUMBER_MAX) :
    (∀ n, n ∈ [SIGILL, SIGTRAP, SIGABRT, SIGBUS, SIGFPE, SIGSEGV] →
        (setupBugsnag cfg libc handler d).disposition n
            = kernel_action libc (handler_action handler)
          ∧ old_at cfg (setupBugsnag cfg libc handler d) n = d n
          ∧ (tearDownBugsnag cfg libc (setupBugsnag cfg libc handler d)).disposition n
              = kernel_action libc (d n))
      ∧ (∀ n, n ∉ [SIGILL, SIGTRAP, SIGABRT, SIGBUS, SIGFPE, SIGSEGV] →
          (setupBugsnag cfg libc handler d).disposition n = d n
            ∧ (tearDownBugsnag cfg libc (setupBugsnag cfg libc handler d)).disposition n = d n)
      ∧ (∀ n,
          ((tearDownBugsnag cfg libc (setupBugsnag cfg libc handler d)).disposition n).sa_sigaction
              = (d n).sa_sigaction
            ∧ ((tearDownBugsnag cfg libc (setupBugsnag cfg libc handler d)).disposition n).sa_mask
              = (d n).sa_mask)
      ∧ ((∀ n, n ∈ [SIGILL, SIGTRAP, SIGABRT, SIGBUS, SIGFPE, SIGSEGV] →
            kernel_action libc (d n) = d n) →
          ∀ n, (tearDownBugsnag cfg libc (setupBugsnag cfg libc handler d)).disposition n
            = d n) := by
  have hm : (11 : Int) < (cfg.SIG_NUMBER_MAX : Int) := by exact_mod_cast hmax
  have hold : ∀ n, n ∈ [SIGILL, SIGTRAP, SIGABRT, SIGBUS, SIGFPE, SIGSEGV] →
      old_at cfg (setupBugsnag cfg libc handler d) n = d n := by
    intro n hn
    have hn2 := (mem_caught_iff n).1 hn
    have hr : 0 ≤ n ∧ n < (cfg.SIG_NUMBER_MAX : Int) := by omega
    rw [old_at, if_pos hr, setupBugsnag_six cfg libc handler d hcount,
      install_six_old cfg libc _ d hmax n, if_pos hn2]
  have hup : ∀ n, (setupBugsnag cfg libc handler d).disposition n
      = if n = 4 ∨ n = 5 ∨ n = 6 ∨ n = 7 ∨ n = 8 ∨ n = 11
        then kernel_action libc (handler_action handler)
        else d n := by
    intro n
    rw [setupBugsnag_six cfg libc handler d hcount, install_six_disposition]
  have hdown : ∀ n,
      (tearDownBugsnag cfg libc (setupBugsnag cfg libc handler d)).disposition n
        = if n = 4 ∨ n = 5 ∨ n = 6 ∨ n = 7 ∨ n = 8 ∨ n = 11 then kernel_action libc (d n)
          else d n := by
    intro n
    rw [tearDownBugsnag_six cfg libc _ hcount, restore_six_disposition]
    by_cases hn : n = 4 ∨ n = 5 ∨ n = 6 ∨ n = 7 ∨ n = 8 ∨ n = 11
    · rw [if_pos hn, if_pos hn, hold n ((mem_caught_iff n).2 hn)]
    · rw [if_neg hn, if_neg hn, hup n, if_neg hn]
  refine ⟨?_, ?_, ?_, ?_⟩
  · intro n hn
    have hn2 := (mem_caught_iff n).1 hn
    refine ⟨?_, hold n hn, ?_⟩
    · rw [hup n, if_pos hn2]
    · rw [hdown n, if_pos hn2]
  · intro n hn
    have hn2 : ¬ (n = 4 ∨ n = 5 ∨ n = 6 ∨ n = 7 ∨ n = 8 ∨ n = 11) :=
      fun h => hn ((mem_caught_iff n).2 h)
    refine ⟨?_, ?_⟩
    · rw [hup n, if_neg hn2]
    · rw [hdown n, if_neg hn2]
  · intro n
    rw [hdown n]
    split <;> exact ⟨rfl, rfl⟩
  · intro hfix n
    rw [hdown n]
    by_cases hn : n = 4 ∨ n = 5 ∨ n = 6 ∨ n = 7 ∨ n = 8 ∨ n = 11
    · rw [if_pos hn]
      exact hfix n ((mem_caught_iff n).2 hn)
    · rw [if_neg hn]

/-- C8 as stated fails with a C library that sets `SA_RESTORER`: from the dispositions of a
process that never called `sigaction`, `SIGSEGV` has the flags `0x4000004` in between, not
`SA_SIGINFO` alone, and after the round trip the flags `0x4000000` and a restorer, not the zero
disposition it had before. -/
theorem setup_teardown_not_identical :
    ((setupBugsnag cfg32 libc_restorer 0xbeef pristine_dispositions).disposition 11).sa_flags
        = 0x4000004
      ∧ ((tearDownBugsnag cfg32 libc_restorer
          (setupBugsnag cfg32 libc_restorer 0xbeef pristine_dispositions)).disposition 11).sa_flags
        = 0x4000000
      ∧ ((tearDownBugsnag cfg32 libc_restorer
          (setupBugsnag cfg32 libc_restorer 0xbeef
            pristine_dispositions)).disposition 11).sa_restorer = 0x7f0000042520
      ∧ (pristine_dispositions 11).sa_flags = 0
      ∧ ¬ ((tearDownBugsnag cfg32 libc_restorer
          (setupBugsnag cfg32 libc_restorer 0xbeef pristine_dispositions)).disposition 11
            = pristine_dispositions 11) := by
  decide

/-- C8 with the constants of `cfg32` and prior dispositions that were installed through the same
library: in between `SIGSEGV` has the crash handler with `SA_SIGINFO` and `SA_RESTORER`, and after
the round trip it has its prior disposition again, bit for bit. -/
theorem setup_teardown_round_trip_witness :
    (setupBugsnag cfg32 libc_restorer 0xbeef prior_dispositions).disposition 11
        = ⟨0xbeef, 0, 0x4000004, 0x7f0000042520⟩
      ∧ (tearDownBugsnag cfg32 libc_restorer
          (setupBugsnag cfg32 libc_restorer 0xbeef prior_dispositions)).disposition 11
        = prior_dispositions 11 :=
  ⟨((setup_teardown_round_trip cfg32 libc_restorer 0xbeef prior_dispositions (by decide)
      (by decide)).1 11 (by decide)).1,
   (setup_teardown_round_trip cfg32 libc_restorer 0xbeef prior_dispositions (by decide)
      (by decide)).2.2.2 (by decide) 11⟩

/-! ## Two runs of the unwinders on different prior buffers -/

theorem unwind_frame_loop_agree (cfg : Config) (p : Process) (max_depth : Int) :
    ∀ (fuel base out : Nat) (u1 u2 : unwind_struct), (∀ i, i < out → u1 i = u2 i) →
      (unwind_frame_loop cfg p max_depth fuel base out u1).1
          = (unwind_frame_loop cfg p max_depth fuel base out u2).1
        ∧ ∀ i, i < (unwind_frame_loop cfg p max_depth fuel base out u1).1 →
            (unwind_frame_loop cfg p max_depth fuel base out u1).2 i
              = (unwind_frame_loop cfg p max_depth fuel base out u2).2 i := by
  intro fuel
  induction fuel with
  | zero => intro base out u1 u2 h; exact ⟨rfl, h⟩
  | succ fuel ih =>
    intro base out u1 u2 h
    rw [unwind_frame_loop.eq_2, unwind_frame_loop.eq_2]
    split
    · split
      · apply ih
        intro i hi
        by_cases hio : i = out
        · simp [set_frame, hio]
        · simp only [set_frame, hio, if_false]
          exact h i (by omega)
      · exact ⟨rfl, h⟩
    · exact ⟨rfl, h⟩

/-- Two runs of `unwind_frame` on different prior buffers return the same count and the same
addresses; the names agree from index 1 on (index 0 may be the frame of `unwind_basic`, whose
name is not assigned). -/
theorem unwind_frame_agree (cfg : Config) (p : Process) (max_depth : Int) (uc : ucontext_t)
    (u1 u2 : unwind_struct) :
    (unwind_frame cfg p u1 max_depth uc).1 = (unwind_frame cfg p u2 max_depth uc).1
      ∧ ∀ i : Nat, (i : Int) < (unwind_frame cfg p u1 max_depth uc).1 →
          ((unwind_frame cfg p u1 max_depth uc).2 i).frame_pointer
              = ((unwind_frame cfg p u2 max_depth uc).2 i).frame_pointer
            ∧ (1 ≤ i → ((unwind_frame cfg p u1 max_depth uc).2 i).method
                = ((unwind_frame cfg p u2 max_depth uc).2 i).method) := by
  have hfirst : (unwind_frame_first p u1 uc).1 = (unwind_frame_first p u2 uc).1
      ∧ ∀ i, i < (unwind_frame_first p u1 uc).1 →
          (unwind_frame_first p u1 uc).2 i = (unwind_frame_first p u2 uc).2 i := by
    simp only [unwind_frame_first]
    split
    · refine ⟨rfl, ?_⟩
      intro i hi
      have : i = 0 := by simpa using hi
      simp [set_frame, this]
    · exact ⟨rfl, fun i hi => absurd hi (Nat.not_lt_zero i)⟩
  have hloop := unwind_frame_loop_agree cfg p max_depth max_depth.toNat (get_sp_from_ucontext uc)
    (unwind_frame_first p u1 uc).1 (unwind_frame_first p u1 uc).2 (unwind_frame_first p u2 uc).2
    hfirst.2
  simp only [unwind_frame]
  rw [← hfirst.1, ← hloop.1]
  split
  · refine ⟨rfl, ?_⟩
    intro i hi
    simp only at hi
    have hi2 := hloop.2 i (by exact_mod_cast hi)
    simp only at hi2 ⊢
    rw [hi2]
    exact ⟨rfl, fun _ => rfl⟩
  · refine ⟨rfl, ?_⟩
    intro i hi
    have : i = 0 := by
      simp only [unwind_basic] at hi
      omega
    subst this
    refine ⟨by simp [unwind_basic, set_frame], fun h => absurd h (by decide)⟩

theorem unwind_libunwind_body_agree {σ : Type} (lib : Libunwind σ) (max_depth : Int) (cursor : σ)
    (count : Nat) (u1 u2 : unwind_struct) :
    (∃ n f, n ≤ count + 1
        ∧ unwind_libunwind_body lib max_depth cursor count u1 = Sum.inl (n, set_frame u1 count f)
        ∧ unwind_libunwind_body lib max_depth cursor count u2
            = Sum.inl (n, set_frame u2 count f))
      ∨ (∃ c f,
        unwind_libunwind_body lib max_depth cursor count u1
            = Sum.inr (c, count + 1, set_frame u1 count f)
        ∧ unwind_libunwind_body lib max_depth cursor count u2
            = Sum.inr (c, count + 1, set_frame u2 count f)) := by
  simp only [unwind_libunwind_body]
  split_ifs with h1 h2
  · exact Or.inl ⟨count, _, Nat.le_succ count, rfl, rfl⟩
  · exact Or.inr ⟨_, _, rfl, rfl⟩
  · exact Or.inl ⟨count + 1, _, Nat.le_refl _, rfl, rfl⟩

theorem set_frame_agree (u1 u2 : unwind_struct) (count : Nat) (f : unwind_struct_frame)
    (h : ∀ i, i < count → u1 i = u2 i) (n : Nat) (hn : n ≤ count + 1) :
    ∀ i, i < n → set_frame u1 count f i = set_frame u2 count f i := by
  intro i hi
  by_cases hic : i = count
  · simp [set_frame, hic]
  · simp only [set_frame, hic, if_false]
    exact h i (by omega)

theorem unwind_libunwind_loop_agree {σ : Type} (lib : Libunwind σ) (max_depth : Int) :
    ∀ (fuel : Nat) (cursor : σ) (count : Nat) (u1 u2 : unwind_struct),
      (∀ i, i < count → u1 i = u2 i) →
      (unwind_libunwind_loop lib max_depth fuel cursor count u1).1
          = (unwind_libunwind_loop lib max_depth fuel cursor count u2).1
        ∧ ∀ i, i < (unwind_libunwind_loop lib max_depth fuel cursor count u1).1 →
            (unwind_libunwind_loop lib max_depth fuel cursor count u1).2 i
              = (unwind_libunwind_loop lib max_depth fuel cursor count u2).2 i := by
  intro fuel
  induction fuel with
  | zero =>
    intro cursor count u1 u2 h
    rw [unwind_libunwind_loop.eq_1, unwind_libunwind_loop.eq_1]
    rcases unwind_libunwind_body_agree lib max_depth cursor count u1 u2 with
      ⟨n, f, hn, h1, h2⟩ | ⟨c, f, h1, h2⟩
    · rw [h1, h2]
      exact ⟨rfl, set_frame_agree u1 u2 count f h n hn⟩
    · rw [h1, h2]
      exact ⟨rfl, set_frame_agree u1 u2 count f h (count + 1) (Nat.le_refl _)⟩
  | succ fuel ih =>
    intro cursor count u1 u2 h
    rw [unwind_libunwind_loop.eq_2, unwind_libunwind_loop.eq_2]
    rcases unwind_libunwind_body_agree lib max_depth cursor count u1 u2 with
      ⟨n, f, hn, h1, h2⟩ | ⟨c, f, h1, h2⟩
    · rw [h1, h2]
      exact ⟨rfl, set_frame_agree u1 u2 count f h n hn⟩
    · rw [h1, h2]
      exact ih c (count + 1) _ _ (set_frame_agree u1 u2 count f h (count + 1) (Nat.le_refl _))

/-- The loop of `unwind_libcorkscrew`: `non_system_found` does not depend on the buffer, and every
index visited holds the library's address and, when the library gave a symbol name, that name. -/
theorem unwind_libcorkscrew_fold (frames : Nat → backtrace_frame_t)
    (symbols : Nat → backtrace_symbol_t) :
    ∀ (l : List Nat) (u : unwind_struct) (b : Bool),
      (l.foldl (unwind_libcorkscrew_step frames symbols) (u, b)).2
          = (b || l.any (fun i => non_system_symbol (symbols i)))
        ∧ ∀ i, (i ∈ l ∨ ((u i).frame_pointer = (frames i).absolute_pc
              ∧ ∀ name, (symbols i).symbol_name = some name → (u i).method = name)) →
            ((l.foldl (unwind_libcorkscrew_step frames symbols) (u, b)).1 i).frame_pointer
                = (frames i).absolute_pc
              ∧ ∀ name, (symbols i).symbol_name = some name →
                  ((l.foldl (unwind_libcorkscrew_step frames symbols) (u, b)).1 i).method
                    = name := by
  intro l
  induction l with
  | nil =>
    intro u b
    refine ⟨by simp, ?_⟩
    intro i hi
    rcases hi with hi | hi
    · cases hi
    · exact hi
  | cons j l ih =>
    intro u b
    rw [List.foldl_cons]
    have hstep : unwind_libcorkscrew_step frames symbols (u, b) j
        = (set_frame u j ⟨(frames j).absolute_pc,
            match (symbols j).symbol_name with
            | some name => name
            | none => (u j).method⟩,
           b || non_system_symbol (symbols j)) := by
      simp only [unwind_libcorkscrew_step]
      split <;> simp_all
    rw [hstep]
    obtain ⟨ih1, ih2⟩ := ih (set_frame u j ⟨(frames j).absolute_pc,
            match (symbols j).symbol_name with
            | some name => name
            | none => (u j).method⟩) (b || non_system_symbol (symbols j))
    refine ⟨by rw [ih1, List.any_cons, Bool.or_assoc], ?_⟩
    intro i hi
    apply ih2
    by_cases hij : i = j
    · right
      subst hij
      refine ⟨by simp [set_frame], ?_⟩
      intro name hname
      simp [set_frame, hname]
    · rcases hi with hi | hi
      · left
        rcases List.mem_cons.1 hi with h | h
        · exact absurd h hij
        · exact h
      · right
        simpa [set_frame, hij] using hi

/-- Two runs of `unwind_libcorkscrew` on different prior buffers return the same count and the
same addresses; the names agree from index 1 on when the library gives a symbol name for every
frame of its backtrace. -/
theorem unwind_libcorkscrew_agree (cfg : Config) (p : Process) (lib : Libcorkscrew)
    (max_depth : Int) (si : siginfo) (uc : ucontext_t) (u1 u2 : unwind_struct) :
    (unwind_libcorkscrew cfg p lib u1 max_depth si uc).1
        = (unwind_libcorkscrew cfg p lib u2 max_depth si uc).1
      ∧ ∀ i : Nat, (i : Int) < (unwind_libcorkscrew cfg p lib u1 max_depth si uc).1 →
          ((unwind_libcorkscrew cfg p lib u1 max_depth si uc).2 i).frame_pointer
              = ((unwind_libcorkscrew cfg p lib u2 max_depth si uc).2 i).frame_pointer
            ∧ ((∀ j : Nat, (j : Int) < (lib.unwind_backtrace_signal_arch si uc max_depth).1 →
                  (lib.get_backtrace_symbols (lib.unwind_backtrace_signal_arch si uc max_depth).2
                    (lib.unwind_backtrace_signal_arch si uc max_depth).1 j).symbol_name ≠ none) →
                1 ≤ i →
                ((unwind_libcorkscrew cfg p lib u1 max_depth si uc).2 i).method
                  = ((unwind_libcorkscrew cfg p lib u2 max_depth si uc).2 i).method) := by
  simp only [unwind_libcorkscrew]
  split
  · have f1 := unwind_libcorkscrew_fold (lib.unwind_backtrace_signal_arch si uc max_depth).2
      (lib.get_backtrace_symbols (lib.unwind_backtrace_signal_arch si uc max_depth).2
        (lib.unwind_backtrace_signal_arch si uc max_depth).1)
      (List.range (lib.unwind_backtrace_signal_arch si uc max_depth).1.toNat) u1 false
    have f2 := unwind_libcorkscrew_fold (lib.unwind_backtrace_signal_arch si uc max_depth).2
      (lib.get_backtrace_symbols (lib.unwind_backtrace_signal_arch si uc max_depth).2
        (lib.unwind_backtrace_signal_arch si uc max_depth).1)
      (List.range (lib.unwind_backtrace_signal_arch si uc max_depth).1.toNat) u2 false
    rw [f1.1, f2.1]
    split
    · refine ⟨rfl, ?_⟩
      intro i hi
      simp only at hi
      have hmem : i ∈ List.range (lib.unwind_backtrace_signal_arch si uc max_depth).1.toNat := by
        rw [List.mem_range]
        omega
      obtain ⟨a1, b1⟩ := f1.2 i (Or.inl hmem)
      obtain ⟨a2, b2⟩ := f2.2 i (Or.inl hmem)
      refine ⟨by simp only; rw [a1, a2], ?_⟩
      intro hnames _
      cases hs : (lib.get_backtrace_symbols (lib.unwind_backtrace_signal_arch si uc max_depth).2
          (lib.unwind_backtrace_signal_arch si uc max_depth).1 i).symbol_name with
      | none => exact absurd hs (hnames i hi)
      | some name => simp only; rw [b1 name hs, b2 name hs]
    · have := unwind_frame_agree cfg p max_depth uc
        ((List.range (lib.unwind_backtrace_signal_arch si uc max_depth).1.toNat).foldl
          (unwind_libcorkscrew_step (lib.unwind_backtrace_signal_arch si uc max_depth).2
            (lib.get_backtrace_symbols (lib.unwind_backtrace_signal_arch si uc max_depth).2
              (lib.unwind_backtrace_signal_arch si uc max_depth).1)) (u1, false)).1
        ((List.range (lib.unwind_backtrace_signal_arch si uc max_depth).1.toNat).foldl
          (unwind_libcorkscrew_step (lib.unwind_backtrace_signal_arch si uc max_depth).2
            (lib.get_backtrace_symbols (lib.unwind_backtrace_signal_arch si uc max_depth).2
              (lib.unwind_backtrace_signal_arch si uc max_depth).1)) (u2, false)).1
      exact ⟨this.1, fun i hi => ⟨(this.2 i hi).1, fun _ h1 => (this.2 i hi).2 h1⟩⟩
  · have := unwind_frame_agree cfg p max_depth uc u1 u2
    exact ⟨this.1, fun i hi => ⟨(this.2 i hi).1, fun _ h1 => (this.2 i hi).2 h1⟩⟩

theorem unwind_libunwind_agree {σ : Type} (cfg : Config) (p : Process) (lib : Libunwind σ)
    (max_depth : Int) (uc : ucontext_t) (u1 u2 : unwind_struct) :
    (unwind_libunwind cfg p lib u1 max_depth uc).1 = (unwind_libunwind cfg p lib u2 max_depth uc).1
      ∧ ∀ i : Nat, (i : Int) < (unwind_libunwind cfg p lib u1 max_depth uc).1 →
          ((unwind_libunwind cfg p lib u1 max_depth uc).2 i).frame_pointer
              = ((unwind_libunwind cfg p lib u2 max_depth uc).2 i).frame_pointer
            ∧ (1 ≤ i → ((unwind_libunwind cfg p lib u1 max_depth uc).2 i).method
                = ((unwind_libunwind cfg p lib u2 max_depth uc).2 i).method) := by
  simp only [unwind_libunwind]
  split
  · rename_i init_local _
    have := unwind_libunwind_loop_agree lib max_depth max_depth.toNat (init_local uc) 0 u1 u2
      (fun i hi => absurd hi (Nat.not_lt_zero i))
    refine ⟨by simp only; rw [this.1], ?_⟩
    intro i hi
    simp only at hi
    have h2 := this.2 i (by exact_mod_cast hi)
    simp only
    rw [h2]
    exact ⟨rfl, fun _ => rfl⟩
  · exact unwind_frame_agree cfg p max_depth uc u1 u2

/-- Two runs of `unwind_stack` on different prior contents of the frame buffer return the same
count and the same addresses; the names agree from index 1 on when the legacy library, if it is
the one consulted, gives a symbol name for every frame of its backtrace. -/
theorem unwind_stack_agree {σ : Type} (cfg : Config) (p : Process) (libs : Libraries σ)
    (max_depth : Int) (si : siginfo) (uc : ucontext_t) (u1 u2 : unwind_struct) :
    (unwind_stack cfg p libs u1 max_depth si uc).1 = (unwind_stack cfg p libs u2 max_depth si uc).1
      ∧ ∀ i : Nat, (i : Int) < (unwind_stack cfg p libs u1 max_depth si uc).1 →
          ((unwind_stack cfg p libs u1 max_depth si uc).2 i).frame_pointer
              = ((unwind_stack cfg p libs u2 max_depth si uc).2 i).frame_pointer
            ∧ ((∀ lib, libs.libunwind = none → libs.libcorkscrew = some lib →
                  ∀ j : Nat, (j : Int) < (lib.unwind_backtrace_signal_arch si uc max_depth).1 →
                    (lib.get_backtrace_symbols
                      (lib.unwind_backtrace_signal_arch si uc max_depth).2
                      (lib.unwind_backtrace_signal_arch si uc max_depth).1 j).symbol_name
                        ≠ none) →
                1 ≤ i →
                ((unwind_stack cfg p libs u1 max_depth si uc).2 i).method
                  = ((unwind_stack cfg p libs u2 max_depth si uc).2 i).method) := by
  unfold unwind_stack
  cases hu : libs.libunwind with
  | some lib =>
    have := unwind_libunwind_agree cfg p lib max_depth uc u1 u2
    exact ⟨this.1, fun i hi => ⟨(this.2 i hi).1, fun _ h1 => (this.2 i hi).2 h1⟩⟩
  | none =>
    cases hc : libs.libcorkscrew with
    | some lib =>
      have := unwind_libcorkscrew_agree cfg p lib max_depth si uc u1 u2
      exact ⟨this.1, fun i hi => ⟨(this.2 i hi).1,
        fun hn h1 => (this.2 i hi).2 (hn lib rfl rfl) h1⟩⟩
    | none =>
      have := unwind_frame_agree cfg p max_depth uc u1 u2
      exact ⟨this.1, fun i hi => ⟨(this.2 i hi).1, fun _ h1 => (this.2 i hi).2 h1⟩⟩

/-! ## Two runs of the handler on different prior buffers -/

theorem signal_handler_frame_agree (cfg : Config) (HM HF : Prop) (old1 old2 : bugsnag_stack_frame)
    (uf1 uf2 : unwind_struct_frame) (info : Dl_info)
    (hfp : uf1.frame_pointer = uf2.frame_pointer) (hm : HM → uf1.method = uf2.method)
    (hf : HF → info.dli_fname ≠ none) :
    fresh_fields HM HF (signal_handler_frame cfg old1 uf1 info)
      (signal_handler_frame cfg old2 uf2 info) := by
  have hfile : HF → (signal_handler_frame cfg old1 uf1 info).file
      = (signal_handler_frame cfg old2 uf2 info).file := by
    intro h
    cases hn : info.dli_fname with
    | none => exact absurd hn (hf h)
    | some name => simp [signal_handler_frame, hn]
  have hmethod : HM → (signal_handler_frame cfg old1 uf1 info).method
      = (signal_handler_frame cfg old2 uf2 info).method := by
    intro h
    simp only [signal_handler_frame, hm h]
  refine ⟨?_, rfl, rfl, ?_, ?_, hmethod, hfile, ?_⟩
  · simp only [signal_handler_frame, hfp]
  · simp only [signal_handler_frame, hfp]
  · intro h
    simp only [signal_handler_frame] at h
    simp only [signal_handler_frame, hfp]
    rw [if_pos h, if_pos h]
  · intro h1 h2
    have e1 := signal_handler_frame_in_project cfg old1 uf1 info
    have e2 := signal_handler_frame_in_project cfg old2 uf2 info
    rw [e1, e2, hfile h2, hmethod h1]

theorem signal_handler_step_agree (cfg : Config) (p : Process) (n1 n2 : unwind_struct)
    (HM HF : Prop) (hF : HF → files_named p) :
    ∀ (l : List Nat) (st1 st2 : (Nat → bugsnag_stack_frame) × Nat),
      st1.2 = st2.2 →
      (∀ k, k < st1.2 → fresh_fields HM HF (st1.1 k) (st2.1 k)) →
      (∀ i, i ∈ l →
        (n1 (i + cfg.FRAMES_TO_IGNORE)).frame_pointer
            = (n2 (i + cfg.FRAMES_TO_IGNORE)).frame_pointer
          ∧ (HM → (n1 (i + cfg.FRAMES_TO_IGNORE)).method
              = (n2 (i + cfg.FRAMES_TO_IGNORE)).method)) →
      (l.foldl (signal_handler_step cfg p n1) st1).2
          = (l.foldl (signal_handler_step cfg p n2) st2).2
        ∧ ∀ k, k < (l.foldl (signal_handler_step cfg p n1) st1).2 →
            fresh_fields HM HF ((l.foldl (signal_handler_step cfg p n1) st1).1 k)
              ((l.foldl (signal_handler_step cfg p n2) st2).1 k) := by
  intro l
  induction l with
  | nil => intro st1 st2 h1 h2 _; exact ⟨h1, h2⟩
  | cons i l ih =>
    intro st1 st2 h1 h2 h3
    rw [List.foldl_cons, List.foldl_cons]
    obtain ⟨hfp, hm⟩ := h3 i (List.mem_cons_self i l)
    have hrest : ∀ j, j ∈ l →
        (n1 (j + cfg.FRAMES_TO_IGNORE)).frame_pointer
            = (n2 (j + cfg.FRAMES_TO_IGNORE)).frame_pointer
          ∧ (HM → (n1 (j + cfg.FRAMES_TO_IGNORE)).method
              = (n2 (j + cfg.FRAMES_TO_IGNORE)).method) :=
      fun j hj => h3 j (List.mem_cons_of_mem i hj)
    cases hd : p.dladdr (n1 (i + cfg.FRAMES_TO_IGNORE)).frame_pointer with
    | none =>
      have hd2 : p.dladdr (n2 (i + cfg.FRAMES_TO_IGNORE)).frame_pointer = none := by
        rw [← hfp]; exact hd
      have e1 : signal_handler_step cfg p n1 st1 i = st1 := by
        simp only [signal_handler_step, hd]
      have e2 : signal_handler_step cfg p n2 st2 i = st2 := by
        simp only [signal_handler_step, hd2]
      rw [e1, e2]
      exact ih st1 st2 h1 h2 hrest
    | some info =>
      have hd2 : p.dladdr (n2 (i + cfg.FRAMES_TO_IGNORE)).frame_pointer = some info := by
        rw [← hfp]; exact hd
      have e1 : signal_handler_step cfg p n1 st1 i
          = (fun k => if k = st1.2 then signal_handler_frame cfg (st1.1 st1.2)
              (n1 (i + cfg.FRAMES_TO_IGNORE)) info else st1.1 k, st1.2 + 1) := by
        simp only [signal_handler_step, hd]
      have e2 : signal_handler_step cfg p n2 st2 i
          = (fun k => if k = st2.2 then signal_handler_frame cfg (st2.1 st2.2)
              (n2 (i + cfg.FRAMES_TO_IGNORE)) info else st2.1 k, st2.2 + 1) := by
        simp only [signal_handler_step, hd2]
      rw [e1, e2]
      apply ih _ _ (by simp only [h1]) _ hrest
      intro k hk
      simp only at hk ⊢
      rw [← h1]
      by_cases hks : k = st1.2
      · simp only [hks, if_true]
        exact signal_handler_frame_agree cfg HM HF _ _ _ _ info hfp hm
          (fun h => hF h _ info hd)
      · simp only [hks, if_false]
        exact h2 k (by omega)

/-- C9, as the code has it: for every crash input and every two prior contents of the raw-frame
buffer and of the report buffer, the handler produces the same message, class and `frames_used`,
and for each of the first `frames_used` frames the same frame address, file address, method
address and `file_offset`; the same `method_offset` when a method base was resolved
(`method_address` is not `NULL`); the same method when the strategy wrote the raw names
(`names_written`); the same file when `dladdr` names the file of every address it resolves
(`files_named`); and the same `in_project` under both conditions. -/
theorem signal_handler_fresh {σ : Type} (cfg : Config) (p : Process) (libs : Libraries σ)
    (n1 n2 : unwind_struct) (e1 e2 : bugsnag_error) (si : siginfo) (uc : ucontext_t) :
    (signal_handler cfg p libs n1 e1 si uc).2.exception.message
        = (signal_handler cfg p libs n2 e2 si uc).2.exception.message
      ∧ (signal_handler cfg p libs n1 e1 si uc).2.exception.error_class
        = (signal_handler cfg p libs n2 e2 si uc).2.exception.error_class
      ∧ (signal_handler cfg p libs n1 e1 si uc).2.exception.frames_used
        = (signal_handler cfg p libs n2 e2 si uc).2.exception.frames_used
      ∧ ∀ k : Nat, (k : Int) < (signal_handler cfg p libs n1 e1 si uc).2.exception.frames_used →
          ((signal_handler cfg p libs n1 e1 si uc).2.exception.stack_trace k).frame_address
              = ((signal_handler cfg p libs n2 e2 si uc).2.exception.stack_trace k).frame_address
            ∧ ((signal_handler cfg p libs n1 e1 si uc).2.exception.stack_trace k).file_address
              = ((signal_handler cfg p libs n2 e2 si uc).2.exception.stack_trace k).file_address
            ∧ ((signal_handler cfg p libs n1 e1 si uc).2.exception.stack_trace k).method_address
              = ((signal_handler cfg p libs n2 e2 si uc).2.exception.stack_trace k).method_address
            ∧ ((signal_handler cfg p libs n1 e1 si uc).2.exception.stack_trace k).file_offset
              = ((signal_handler cfg p libs n2 e2 si uc).2.exception.stack_trace k).file_offset
            ∧ (((signal_handler cfg p libs n1 e1 si uc).2.exception.stack_trace k).method_address
                  ≠ 0 →
                ((signal_handler cfg p libs n1 e1 si uc).2.exception.stack_trace k).method_offset
                  = ((signal_handler cfg p libs n2 e2 si
                      uc).2.exception.stack_trace k).method_offset)
            ∧ (names_written cfg libs si uc →
                ((signal_handler cfg p libs n1 e1 si uc).2.exception.stack_trace k).method
                  = ((signal_handler cfg p libs n2 e2 si uc).2.exception.stack_trace k).method)
            ∧ (files_named p →
                ((signal_handler cfg p libs n1 e1 si uc).2.exception.stack_trace k).file
                  = ((signal_handler cfg p libs n2 e2 si uc).2.exception.stack_trace k).file)
            ∧ (names_written cfg libs si uc → files_named p →
                ((signal_handler cfg p libs n1 e1 si uc).2.exception.stack_trace k).in_project
                  = ((signal_handler cfg p libs n2 e2 si
                      uc).2.exception.stack_trace k).in_project) := by
  have hU := unwind_stack_agree cfg p libs cfg.FRAMES_MAX si uc n1 n2
  have hloop := signal_handler_step_agree cfg p
    (unwind_stack cfg p libs n1 cfg.FRAMES_MAX si uc).2
    (unwind_stack cfg p libs n2 cfg.FRAMES_MAX si uc).2
    (names_written cfg libs si uc) (files_named p) (fun h => h)
    (List.range ((unwind_stack cfg p libs n1 cfg.FRAMES_MAX si uc).1
      - (cfg.FRAMES_TO_IGNORE : Int)).toNat)
    (e1.exception.stack_trace, 0) (e2.exception.stack_trace, 0) rfl
    (fun k hk => absurd hk (Nat.not_lt_zero k))
    (by
      intro i hi
      rw [List.mem_range] at hi
      have hlt : ((i + cfg.FRAMES_TO_IGNORE : Nat) : Int)
          < (unwind_stack cfg p libs n1 cfg.FRAMES_MAX si uc).1 := by
        push_cast
        omega
      obtain ⟨a, b⟩ := hU.2 (i + cfg.FRAMES_TO_IGNORE) hlt
      refine ⟨a, ?_⟩
      intro hn
      exact b hn.2 (by have := hn.1; omega))
  simp only [signal_handler]
  rw [← hU.1]
  refine ⟨trivial, trivial, ?_, ?_⟩
  · split
    · rw [hloop.1]
    · rfl
  · intro k hk
    split at hk
    · rename_i hpos
      simp only [hpos, if_true]
      exact hloop.2 k (by exact_mod_cast hk)
    · simp at hk
      omega

/-- C9 as stated fails: on the same crash, a frame for which `dladdr` resolves no method base
keeps the `method_offset` the report buffer held before, 0 after `calloc` and 99 after the
earlier crash of `stale_error`. -/
theorem signal_handler_stale_method_offset :
    (0 : Int) < (signal_handler cfg32 proc_scan libs_corkscrew zero_frames zero_error ⟨11, 1⟩
        ⟨0x1000, 0x7000⟩).2.exception.frames_used
      ∧ ((signal_handler cfg32 proc_scan libs_corkscrew zero_frames zero_error ⟨11, 1⟩
          ⟨0x1000, 0x7000⟩).2.exception.stack_trace 0).method_offset = 0
      ∧ ((signal_handler cfg32 proc_scan libs_corkscrew zero_frames stale_error ⟨11, 1⟩
          ⟨0x1000, 0x7000⟩).2.exception.stack_trace 0).method_offset = 99 := by
  decide

/-- The missed case of `unwind_libcorkscrew`: a frame whose `symbol_name` is `NULL` keeps the name
the raw-frame buffer held before, and the report takes it as the method. After `calloc` the
method is `dladdr`'s (absent) symbol, after an earlier crash it is that crash's name. -/
theorem unwind_libcorkscrew_stale_name :
    ((signal_handler cfg32 proc_scan libs_unnamed zero_frames zero_error ⟨11, 1⟩
        ⟨0x1000, 0x7000⟩).2.exception.stack_trace 0).method = none
      ∧ ((signal_handler cfg32 proc_scan libs_unnamed stale_frames zero_error ⟨11, 1⟩
          ⟨0x1000, 0x7000⟩).2.exception.stack_trace 0).method = some "old_crash_fn" := by
  decide

theorem files_named_proc_scan : files_named proc_scan := by
  intro a info h
  simp only [proc_scan] at h
  split at h
  · cases h
    simp [app_info]
  · cases h

theorem names_written_libs_corkscrew (si : siginfo) (uc : ucontext_t) :
    names_written cfg32 libs_corkscrew si uc := by
  refine ⟨by decide, ?_⟩
  intro lib _ hl j _
  simp only [libs_corkscrew, Option.some.injEq] at hl
  subst hl
  simp [libcorkscrew_three]

/-- C9 on the crash unwound by `libcorkscrew_three`, after `calloc` and after an earlier crash:
the classified frame has the same address, method, file and flag in both reports. -/
theorem signal_handler_fresh_witness :
    ((signal_handler cfg32 proc_scan libs_corkscrew zero_frames zero_error ⟨11, 1⟩
        ⟨0x1000, 0x7000⟩).2.exception.stack_trace 0).frame_address
        = ((signal_handler cfg32 proc_scan libs_corkscrew stale_frames stale_error ⟨11, 1⟩
            ⟨0x1000, 0x7000⟩).2.exception.stack_trace 0).frame_address
      ∧ ((signal_handler cfg32 proc_scan libs_corkscrew zero_frames zero_error ⟨11, 1⟩
          ⟨0x1000, 0x7000⟩).2.exception.stack_trace 0).method
        = ((signal_handler cfg32 proc_scan libs_corkscrew stale_frames stale_error ⟨11, 1⟩
            ⟨0x1000, 0x7000⟩).2.exception.stack_trace 0).method
      ∧ ((signal_handler cfg32 proc_scan libs_corkscrew zero_frames zero_error ⟨11, 1⟩
          ⟨0x1000, 0x7000⟩).2.exception.stack_trace 0).file
        = ((signal_handler cfg32 proc_scan libs_corkscrew stale_frames stale_error ⟨11, 1⟩
            ⟨0x1000, 0x7000⟩).2.exception.stack_trace 0).file
      ∧ ((signal_handler cfg32 proc_scan libs_corkscrew zero_frames zero_error ⟨11, 1⟩
          ⟨0x1000, 0x7000⟩).2.exception.stack_trace 0).in_project
        = ((signal_handler cfg32 proc_scan libs_corkscrew stale_frames stale_error ⟨11, 1⟩
            ⟨0x1000, 0x7000⟩).2.exception.stack_trace 0).in_project :=
  have h := (signal_handler_fresh cfg32 proc_scan libs_corkscrew zero_frames stale_frames
    zero_error stale_error ⟨11, 1⟩ ⟨0x1000, 0x7000⟩).2.2.2 0 (by decide)
  ⟨h.1, h.2.2.2.2.2.1 (names_written_libs_corkscrew _ _), h.2.2.2.2.2.2.1 files_named_proc_scan,
    h.2.2.2.2.2.2.2 (names_written_libs_corkscrew _ _) files_named_proc_scan⟩

/-! ## The strategy selector -/

/-- C10 as stated fails: `libunwind.so` is located without `init_local`, `libcorkscrew.so` is
present and its backtrace of three application frames would be accepted, and `unwind_stack`
returns the two frames of the manual scanner, not the three of the legacy library. -/
theorem unwind_stack_skips_legacy :
    libunwind_unresolved.init_local.isNone = true
      ∧ (unwind_libcorkscrew cfg32 proc_scan libcorkscrew_three zero_frames 32 ⟨11, 1⟩
          ⟨0x1000, 0x7000⟩).1 = 3
      ∧ ((unwind_libcorkscrew cfg32 proc_scan libcorkscrew_three zero_frames 32 ⟨11, 1⟩
          ⟨0x1000, 0x7000⟩).2 0).frame_pointer = 0x2100
      ∧ (unwind_stack cfg32 proc_scan libs_unresolved zero_frames 32 ⟨11, 1⟩
          ⟨0x1000, 0x7000⟩).1 = 2
      ∧ ((unwind_stack cfg32 proc_scan libs_unresolved zero_frames 32 ⟨11, 1⟩
          ⟨0x1000, 0x7000⟩).2 0).frame_pointer = 0x1000
      ∧ ((unwind_stack cfg32 proc_scan libs_unresolved zero_frames 32 ⟨11, 1⟩
          ⟨0x1000, 0x7000⟩).2 1).frame_pointer = 0x2000 := by
  decide

/-- C10, as the code has it: when `libunwind.so` is located the result is that of
`unwind_libunwind`, which without `init_local` is the manual scanner's, whatever the legacy
library would give; only when `libunwind.so` cannot be located is the legacy library consulted:
if it is present with its entry points and its backtrace has a non-system frame, `unwind_stack`
returns the library's size and addresses; if it is absent, lacks an entry point or has no
non-system frame, `unwind_stack` returns the count and addresses of the manual scanner. -/
theorem unwind_stack_order {σ : Type} (cfg : Config) (p : Process) (libs : Libraries σ)
    (unwind : unwind_struct) (max_depth : Int) (si : siginfo) (uc : ucontext_t) :
    (∀ lib, libs.libunwind = some lib →
        unwind_stack cfg p libs unwind max_depth si uc
            = unwind_libunwind cfg p lib unwind max_depth uc
          ∧ (lib.init_local = none →
              unwind_stack cfg p libs unwind max_depth si uc
                = unwind_frame cfg p unwind max_depth uc))
      ∧ (libs.libunwind = none → ∀ lc, libs.libcorkscrew = some lc → lc.entry_points = true →
          (∃ i : Nat, (i : Int) < (lc.unwind_backtrace_signal_arch si uc max_depth).1
            ∧ non_system_symbol (lc.get_backtrace_symbols
                (lc.unwind_backtrace_signal_arch si uc max_depth).2
                (lc.unwind_backtrace_signal_arch si uc max_depth).1 i) = true) →
          (unwind_stack cfg p libs unwind max_depth si uc).1
              = (lc.unwind_backtrace_signal_arch si uc max_depth).1
            ∧ ∀ i : Nat, (i : Int) < (lc.unwind_backtrace_signal_arch si uc max_depth).1 →
                ((unwind_stack cfg p libs unwind max_depth si uc).2 i).frame_pointer
                  = ((lc.unwind_backtrace_signal_arch si uc max_depth).2 i).absolute_pc)
      ∧ (libs.libunwind = none →
          (libs.libcorkscrew = none
            ∨ ∃ lc, libs.libcorkscrew = some lc
                ∧ (lc.entry_points = false
                  ∨ ∀ i : Nat, (i : Int) < (lc.unwind_backtrace_signal_arch si uc max_depth).1 →
                      non_system_symbol (lc.get_backtrace_symbols
                        (lc.unwind_backtrace_signal_arch si uc max_depth).2
                        (lc.unwind_backtrace_signal_arch si uc max_depth).1 i) = false)) →
          (unwind_stack cfg p libs unwind max_depth si uc).1
              = (unwind_frame cfg p unwind max_depth uc).1
            ∧ ∀ i : Nat, (i : Int) < (unwind_frame cfg p unwind max_depth uc).1 →
                ((unwind_stack cfg p libs unwind max_depth si uc).2 i).frame_pointer
                  = ((unwind_frame cfg p unwind max_depth uc).2 i).frame_pointer) := by
  refine ⟨?_, ?_, ?_⟩
  · intro lib hlib
    have h1 : unwind_stack cfg p libs unwind max_depth si uc
        = unwind_libunwind cfg p lib unwind max_depth uc := by
      simp only [unwind_stack, hlib]
    refine ⟨h1, ?_⟩
    intro hinit
    rw [h1]
    simp only [unwind_libunwind, hinit]
  · intro hnone lc hlc hentry ⟨i, hi, hsym⟩
    have hfold := unwind_libcorkscrew_fold (lc.unwind_backtrace_signal_arch si uc max_depth).2
      (lc.get_backtrace_symbols (lc.unwind_backtrace_signal_arch si uc max_depth).2
        (lc.unwind_backtrace_signal_arch si uc max_depth).1)
      (List.range (lc.unwind_backtrace_signal_arch si uc max_depth).1.toNat) unwind false
    have hany : (List.range (lc.unwind_backtrace_signal_arch si uc max_depth).1.toNat).any
        (fun i => non_system_symbol (lc.get_backtrace_symbols
          (lc.unwind_backtrace_signal_arch si uc max_depth).2
          (lc.unwind_backtrace_signal_arch si uc max_depth).1 i)) = true := by
      rw [List.any_eq_true]
      exact ⟨i, by rw [List.mem_range]; omega, hsym⟩
    have hfound := hfold.1
    rw [hany, Bool.or_true] at hfound
    simp only [unwind_stack, hnone, hlc, unwind_libcorkscrew, hentry, if_true, hfound]
    refine ⟨trivial, ?_⟩
    intro j hj
    exact (hfold.2 j (Or.inl (by rw [List.mem_range]; omega))).1
  · intro hnone hcase
    rcases hcase with hc | ⟨lc, hlc, hrej⟩
    · simp only [unwind_stack, hnone, hc]
      exact ⟨trivial, fun _ _ => trivial⟩
    · rcases hrej with hentry | hsym
      · have e1 : unwind_stack cfg p libs unwind max_depth si uc
            = unwind_libcorkscrew cfg p lc unwind max_depth si uc := by
          simp only [unwind_stack, hnone, hlc]
        have e2 : unwind_libcorkscrew cfg p lc unwind max_depth si uc
            = unwind_frame cfg p unwind max_depth uc := by
          simp [unwind_libcorkscrew, hentry]
        rw [e1, e2]
        exact ⟨rfl, fun _ _ => rfl⟩
      · by_cases hentry : lc.entry_points = true
        · have hfold := unwind_libcorkscrew_fold
            (lc.unwind_backtrace_signal_arch si uc max_depth).2
            (lc.get_backtrace_symbols (lc.unwind_backtrace_signal_arch si uc max_depth).2
              (lc.unwind_backtrace_signal_arch si uc max_depth).1)
            (List.range (lc.unwind_backtrace_signal_arch si uc max_depth).1.toNat) unwind false
          have hany : (List.range (lc.unwind_backtrace_signal_arch si uc max_depth).1.toNat).any
              (fun i => non_system_symbol (lc.get_backtrace_symbols
                (lc.unwind_backtrace_signal_arch si uc max_depth).2
                (lc.unwind_backtrace_signal_arch si uc max_depth).1 i)) = false := by
            rw [List.any_eq_false]
            intro j hj
            rw [List.mem_range] at hj
            rw [hsym j (by omega)]
            exact Bool.false_ne_true
          have hfound := hfold.1
          rw [hany, Bool.or_false] at hfound
          simp only [unwind_stack, hnone, hlc, unwind_libcorkscrew, hentry, if_true, hfound]
          have hag := unwind_frame_agree cfg p max_depth uc
            ((List.range (lc.unwind_backtrace_signal_arch si uc max_depth).1.toNat).foldl
              (unwind_libcorkscrew_step (lc.unwind_backtrace_signal_arch si uc max_depth).2
                (lc.get_backtrace_symbols (lc.unwind_backtrace_signal_arch si uc max_depth).2
                  (lc.unwind_backtrace_signal_arch si uc max_depth).1)) (unwind, false)).1
            unwind
          refine ⟨by simpa using hag.1, ?_⟩
          intro j hj
          have := (hag.2 j (by rw [hag.1]; exact hj)).1
          simpa using this
        · have hentry2 : lc.entry_points = false := by simpa using hentry
          have e1 : unwind_stack cfg p libs unwind max_depth si uc
              = unwind_libcorkscrew cfg p lc unwind max_depth si uc := by
            simp only [unwind_stack, hnone, hlc]
          have e2 : unwind_libcorkscrew cfg p lc unwind max_depth si uc
              = unwind_frame cfg p unwind max_depth uc := by
            simp [unwind_libcorkscrew, hentry2]
          rw [e1, e2]
          exact ⟨rfl, fun _ _ => rfl⟩

/-- C10 on two sets of libraries: with an unresolved `libunwind.so` the result is the manual
scanner's although `libcorkscrew.so` is present; with `libcorkscrew.so` alone the result is its
three frames. -/
theorem unwind_stack_order_witness :
    unwind_stack cfg32 proc_scan libs_unresolved zero_frames 32 ⟨11, 1⟩ ⟨0x1000, 0x7000⟩
        = unwind_frame cfg32 proc_scan zero_frames 32 ⟨0x1000, 0x7000⟩
      ∧ (unwind_stack cfg32 proc_scan libs_corkscrew zero_frames 32 ⟨11, 1⟩
          ⟨0x1000, 0x7000⟩).1 = 3 :=
  ⟨((unwind_stack_order cfg32 proc_scan libs_unresolved zero_frames 32 ⟨11, 1⟩
      ⟨0x1000, 0x7000⟩).1 libunwind_unresolved rfl).2 rfl,
   ((unwind_stack_order cfg32 proc_scan libs_corkscrew zero_frames 32 ⟨11, 1⟩
      ⟨0x1000, 0x7000⟩).2.1 rfl libcorkscrew_three rfl rfl ⟨0, by decide, by decide⟩).1⟩

/-! ## The report builder as a filter -/

/-- The loop of `signal_handler` over the offsets `l`: `frames_used` grows by the number of
offsets whose frame `dladdr` resolves, the slots below the old `frames_used` and from the new one
on are left as they were, and the slots in between hold, in order, the frames built for those
offsets. -/
theorem signal_handler_step_filter (cfg : Config) (p : Process) (raw : unwind_struct) :
    ∀ (l : List Nat) (st : (Nat → bugsnag_stack_frame) × Nat),
      (l.foldl (signal_handler_step cfg p raw) st).2
          = st.2 + (l.filter (fun i =>
              (p.dladdr (raw (i + cfg.FRAMES_TO_IGNORE)).frame_pointer).isSome)).length
        ∧ (∀ k, k < st.2 → (l.foldl (signal_handler_step cfg p raw) st).1 k = st.1 k)
        ∧ (∀ k, st.2 + (l.filter (fun i =>
              (p.dladdr (raw (i + cfg.FRAMES_TO_IGNORE)).frame_pointer).isSome)).length ≤ k →
            (l.foldl (signal_handler_step cfg p raw) st).1 k = st.1 k)
        ∧ (∀ k i, (l.filter (fun i =>
              (p.dladdr (raw (i + cfg.FRAMES_TO_IGNORE)).frame_pointer).isSome))[k]? = some i →
            ∃ info, p.dladdr (raw (i + cfg.FRAMES_TO_IGNORE)).frame_pointer = some info
              ∧ (l.foldl (signal_handler_step cfg p raw) st).1 (st.2 + k)
                  = signal_handler_frame cfg (st.1 (st.2 + k))
                      (raw (i + cfg.FRAMES_TO_IGNORE)) info) := by
  intro l
  induction l with
  | nil =>
    intro st
    refine ⟨rfl, fun _ _ => rfl, fun _ _ => rfl, ?_⟩
    intro k i h
    simp at h
  | cons a l ih =>
    intro st
    rw [List.foldl_cons]
    cases hd : p.dladdr (raw (a + cfg.FRAMES_TO_IGNORE)).frame_pointer with
    | none =>
      have e : signal_handler_step cfg p raw st a = st := by
        simp only [signal_handler_step, hd]
      have hf : (a :: l).filter (fun i =>
            (p.dladdr (raw (i + cfg.FRAMES_TO_IGNORE)).frame_pointer).isSome)
          = l.filter (fun i =>
            (p.dladdr (raw (i + cfg.FRAMES_TO_IGNORE)).frame_pointer).isSome) := by
        rw [List.filter_cons_of_neg]
        simp [hd]
      rw [e, hf]
      exact ih st
    | some info =>
      have e : signal_handler_step cfg p raw st a
          = (fun k => if k = st.2 then signal_handler_frame cfg (st.1 st.2)
              (raw (a + cfg.FRAMES_TO_IGNORE)) info else st.1 k, st.2 + 1) := by
        simp only [signal_handler_step, hd]
      have hf : (a :: l).filter (fun i =>
            (p.dladdr (raw (i + cfg.FRAMES_TO_IGNORE)).frame_pointer).isSome)
          = a :: l.filter (fun i =>
            (p.dladdr (raw (i + cfg.FRAMES_TO_IGNORE)).frame_pointer).isSome) := by
        rw [List.filter_cons_of_pos]
        simp [hd]
      rw [e, hf]
      obtain ⟨h1, h2, h3, h4⟩ := ih (fun k => if k = st.2 then signal_handler_frame cfg
        (st.1 st.2) (raw (a + cfg.FRAMES_TO_IGNORE)) info else st.1 k, st.2 + 1)
      simp only at h1 h2 h3 h4
      refine ⟨?_, ?_, ?_, ?_⟩
      · rw [h1, List.length_cons]
        omega
      · intro k hk
        rw [h2 k (by omega), if_neg (by omega)]
      · intro k hk
        rw [List.length_cons] at hk
        rw [h3 k (by omega), if_neg (by omega)]
      · intro k i hki
        cases k with
        | zero =>
          rw [List.getElem?_cons_zero] at hki
          cases hki
          refine ⟨info, hd, ?_⟩
          have e0 : st.2 + 0 = st.2 := rfl
          rw [e0, h2 st.2 (by omega), if_pos rfl]
        | succ k =>
          rw [List.getElem?_cons_succ] at hki
          obtain ⟨info2, hi2, hfr⟩ := h4 k i hki
          refine ⟨info2, hi2, ?_⟩
          have e1 : st.2 + (k + 1) = st.2 + 1 + k := by omega
          rw [e1, hfr, if_neg (by omega)]

/-- The frames and the count `signal_handler` leaves in the report are those of its loop over the
offsets `0 .. n - N - 1`, also when `n - N` is not positive and the loop is skipped. -/
theorem signal_handler_report {σ : Type} (cfg : Config) (p : Process) (libs : Libraries σ)
    (g_native_code : unwind_struct) (g_bugsnag_error : bugsnag_error) (si : siginfo)
    (uc : ucontext_t) :
    (signal_handler cfg p libs g_native_code g_bugsnag_error si uc).2.exception.stack_trace
        = ((List.range ((unwind_stack cfg p libs g_native_code cfg.FRAMES_MAX si uc).1
              - (cfg.FRAMES_TO_IGNORE : Int)).toNat).foldl
            (signal_handler_step cfg p
              (unwind_stack cfg p libs g_native_code cfg.FRAMES_MAX si uc).2)
            (g_bugsnag_error.exception.stack_trace, 0)).1
      ∧ (signal_handler cfg p libs g_native_code g_bugsnag_error si uc).2.exception.frames_used
        = (((List.range ((unwind_stack cfg p libs g_native_code cfg.FRAMES_MAX si uc).1
              - (cfg.FRAMES_TO_IGNORE : Int)).toNat).foldl
            (signal_handler_step cfg p
              (unwind_stack cfg p libs g_native_code cfg.FRAMES_MAX si uc).2)
            (g_bugsnag_error.exception.stack_trace, 0)).2 : Int) := by
  simp only [signal_handler]
  split
  · exact ⟨rfl, rfl⟩
  · rename_i hneg
    have h0 : ((unwind_stack cfg p libs g_native_code cfg.FRAMES_MAX si uc).1
        - (cfg.FRAMES_TO_IGNORE : Int)).toNat = 0 := by omega
    rw [h0]
    exact ⟨rfl, rfl⟩

theorem kept_positions_eq (cfg : Config) (p : Process) (raw : unwind_struct) (n : Int) :
    kept_positions cfg p raw n
      = ((List.range (n - cfg.FRAMES_TO_IGNORE).toNat).filter (fun i =>
          (p.dladdr (raw (i + cfg.FRAMES_TO_IGNORE)).frame_pointer).isSome)).map
          (fun i => i + cfg.FRAMES_TO_IGNORE) := by
  unfold kept_positions
  rw [List.filter_map]
  rfl

theorem kept_positions_pairwise (cfg : Config) (p : Process) (raw : unwind_struct) (n : Int) :
    (kept_positions cfg p raw n).Pairwise (fun a b => a < b) := by
  unfold kept_positions
  apply List.Pairwise.filter
  rw [List.pairwise_map]
  exact List.Pairwise.imp (fun h => Nat.add_lt_add_right h _) (List.pairwise_lt_range _)

theorem kept_positions_mem (cfg : Config) (p : Process) (raw : unwind_struct) (n : Int)
    (j : Nat) :
    j ∈ kept_positions cfg p raw n
      ↔ cfg.FRAMES_TO_IGNORE ≤ j ∧ (j : Int) < n
          ∧ (p.dladdr (raw j).frame_pointer).isSome = true := by
  unfold kept_positions
  rw [List.mem_filter, List.mem_map]
  constructor
  · rintro ⟨⟨i, hi, rfl⟩, hd⟩
    rw [List.mem_range] at hi
    exact ⟨Nat.le_add_left _ _, by push_cast; omega, hd⟩
  · rintro ⟨h1, h2, h3⟩
    refine ⟨⟨j - cfg.FRAMES_TO_IGNORE, ?_, by omega⟩, h3⟩
    rw [List.mem_range]
    omega

/-- C11: for the raw trace of `n` frames the selector returns, the frames of the report are, in
order, the raw frames at the positions `N, ..., n - 1` (`N = FRAMES_TO_IGNORE`) at whose address
`dladdr` succeeds (`kept_positions`, increasing): frame `k` of the report is built from the
`k`-th kept raw frame and carries its address, a frame `dladdr` does not resolve is not counted,
`frames_used` is the number of frames kept, the slots from `frames_used` on are left as they
were, `frames_used` is at most `max 0 (n - N)`, and it is 0 when `n` is at most `N`. -/
theorem signal_handler_filter {σ : Type} (cfg : Config) (p : Process) (libs : Libraries σ)
    (g_native_code : unwind_struct) (g_bugsnag_error : bugsnag_error) (si : siginfo)
    (uc : ucontext_t) :
    let n := (unwind_stack cfg p libs g_native_code cfg.FRAMES_MAX si uc).1
    let raw := (unwind_stack cfg p libs g_native_code cfg.FRAMES_MAX si uc).2
    let report := (signal_handler cfg p libs g_native_code g_bugsnag_error si uc).2.exception
    let kept := kept_positions cfg p raw n
    report.frames_used = (kept.length : Int)
      ∧ (List.range kept.length).map (fun k => (report.stack_trace k).frame_address)
          = kept.map (fun j => (raw j).frame_pointer)
      ∧ (∀ k j, kept[k]? = some j →
          ∃ info, p.dladdr (raw j).frame_pointer = some info
            ∧ report.stack_trace k
                = signal_handler_frame cfg (g_bugsnag_error.exception.stack_trace k) (raw j) info)
      ∧ kept.Pairwise (fun a b => a < b)
      ∧ (∀ j, j ∈ kept ↔ cfg.FRAMES_TO_IGNORE ≤ j ∧ (j : Int) < n
            ∧ (p.dladdr (raw j).frame_pointer).isSome = true)
      ∧ (∀ k, kept.length ≤ k →
          report.stack_trace k = g_bugsnag_error.exception.stack_trace k)
      ∧ report.frames_used ≤ max 0 (n - (cfg.FRAMES_TO_IGNORE : Int))
      ∧ (n ≤ (cfg.FRAMES_TO_IGNORE : Int) → report.frames_used = 0) := by
  intro n raw report kept
  have hT : report.stack_trace
      = ((List.range (n - (cfg.FRAMES_TO_IGNORE : Int)).toNat).foldl
          (signal_handler_step cfg p raw) (g_bugsnag_error.exception.stack_trace, 0)).1 :=
    (signal_handler_report cfg p libs g_native_code g_bugsnag_error si uc).1
  have hU : report.frames_used
      = (((List.range (n - (cfg.FRAMES_TO_IGNORE : Int)).toNat).foldl
          (signal_handler_step cfg p raw) (g_bugsnag_error.exception.stack_trace, 0)).2 : Int) :=
    (signal_handler_report cfg p libs g_native_code g_bugsnag_error si uc).2
  obtain ⟨f1, _, f3, f4⟩ := signal_handler_step_filter cfg p raw
    (List.range (n - (cfg.FRAMES_TO_IGNORE : Int)).toNat)
    (g_bugsnag_error.exception.stack_trace, 0)
  have hk : kept = ((List.range (n - (cfg.FRAMES_TO_IGNORE : Int)).toNat).filter (fun i =>
      (p.dladdr (raw (i + cfg.FRAMES_TO_IGNORE)).frame_pointer).isSome)).map
        (fun i => i + cfg.FRAMES_TO_IGNORE) := kept_positions_eq cfg p raw n
  have hlen : kept.length = ((List.range (n - (cfg.FRAMES_TO_IGNORE : Int)).toNat).filter
      (fun i => (p.dladdr (raw (i + cfg.FRAMES_TO_IGNORE)).frame_pointer).isSome)).length := by
    rw [hk, List.length_map]
  have hused : report.frames_used = (kept.length : Int) := by
    rw [hU, f1, hlen]
    simp
  have hframe : ∀ k j, kept[k]? = some j →
      ∃ info, p.dladdr (raw j).frame_pointer = some info
        ∧ report.stack_trace k
            = signal_handler_frame cfg (g_bugsnag_error.exception.stack_trace k) (raw j)
                info := by
    intro k j hkj
    rw [hk, List.getElem?_map, Option.map_eq_some'] at hkj
    obtain ⟨i, hi, rfl⟩ := hkj
    obtain ⟨info, hinfo, hfr⟩ := f4 k i hi
    refine ⟨info, hinfo, ?_⟩
    rw [hT]
    simpa using hfr
  have hle : kept.length ≤ (n - (cfg.FRAMES_TO_IGNORE : Int)).toNat := by
    rw [hlen]
    exact (List.length_filter_le _ _).trans (by rw [List.length_range])
  refine ⟨hused, ?_, hframe, kept_positions_pairwise cfg p raw n,
    kept_positions_mem cfg p raw n, ?_, ?_, ?_⟩
  · apply List.ext_getElem
    · simp
    · intro k h1 h2
      rw [List.getElem_map, List.getElem_map, List.getElem_range]
      have h3 : k < kept.length := by simpa using h2
      obtain ⟨info, _, hfr⟩ := hframe k kept[k] (List.getElem?_eq_getElem h3)
      rw [hfr]
      rfl
  · intro k hkk
    rw [hT]
    refine f3 k ?_
    show 0 + _ ≤ k
    rw [← hlen]
    omega
  · rw [hused]
    omega
  · intro hn
    rw [hused]
    omega

/-- C11 on a backtrace of five frames with two ignored: of the positions 2, 3, 4 the frame at
position 3 is not resolved by `dladdr`, the report counts the other two, and its second frame is
built from the raw frame at position 4. -/
theorem signal_handler_filter_witness :
    kept_positions cfg32 proc_scan
        (unwind_stack cfg32 proc_scan libs_gap zero_frames cfg32.FRAMES_MAX ⟨11, 1⟩
          ⟨0x1000, 0x7000⟩).2
        (unwind_stack cfg32 proc_scan libs_gap zero_frames cfg32.FRAMES_MAX ⟨11, 1⟩
          ⟨0x1000, 0x7000⟩).1 = [2, 4]
      ∧ (signal_handler cfg32 proc_scan libs_gap zero_frames zero_error ⟨11, 1⟩
          ⟨0x1000, 0x7000⟩).2.exception.frames_used
        = ((kept_positions cfg32 proc_scan
            (unwind_stack cfg32 proc_scan libs_gap zero_frames cfg32.FRAMES_MAX ⟨11, 1⟩
              ⟨0x1000, 0x7000⟩).2
            (unwind_stack cfg32 proc_scan libs_gap zero_frames cfg32.FRAMES_MAX ⟨11, 1⟩
              ⟨0x1000, 0x7000⟩).1).length : Int)
      ∧ ∃ info,
          proc_scan.dladdr ((unwind_stack cfg32 proc_scan libs_gap zero_frames cfg32.FRAMES_MAX
              ⟨11, 1⟩ ⟨0x1000, 0x7000⟩).2 4).frame_pointer = some info
            ∧ (signal_handler cfg32 proc_scan libs_gap zero_frames zero_error ⟨11, 1⟩
                ⟨0x1000, 0x7000⟩).2.exception.stack_trace 1
              = signal_handler_frame cfg32 (zero_error.exception.stack_trace 1)
                  ((unwind_stack cfg32 proc_scan libs_gap zero_frames cfg32.FRAMES_MAX ⟨11, 1⟩
                    ⟨0x1000, 0x7000⟩).2 4) info :=
  ⟨by decide,
   (signal_handler_filter cfg32 proc_scan libs_gap zero_frames zero_error ⟨11, 1⟩
      ⟨0x1000, 0x7000⟩).1,
   (signal_handler_filter cfg32 proc_scan libs_gap zero_frames zero_error ⟨11, 1⟩
      ⟨0x1000, 0x7000⟩).2.2.1 1 4 (by decide)⟩

/-- The report of the same crash, evaluated: two frames, at the addresses of the raw frames at
positions 2 and 4. -/
theorem signal_handler_filter_gap :
    (signal_handler cfg32 proc_scan libs_gap zero_frames zero_error ⟨11, 1⟩
        ⟨0x1000, 0x7000⟩).2.exception.frames_used = 2
      ∧ ((signal_handler cfg32 proc_scan libs_gap zero_frames zero_error ⟨11, 1⟩
          ⟨0x1000, 0x7000⟩).2.exception.stack_trace 0).frame_address = 0x2120
      ∧ ((signal_handler cfg32 proc_scan libs_gap zero_frames zero_error ⟨11, 1⟩
          ⟨0x1000, 0x7000⟩).2.exception.stack_trace 1).frame_address = 0x2140 := by
  decide

/-! ## The frame count of every strategy -/

theorem unwind_frame_loop_le_max (cfg : Config) (p : Process) (max_depth : Int) :
    ∀ (fuel base out : Nat) (unwind : unwind_struct),
      ((unwind_frame_loop cfg p max_depth fuel base out unwind).1 : Int)
        ≤ max max_depth out := by
  intro fuel
  induction fuel with
  | zero => intro base out unwind; simp [unwind_frame_loop]
  | succ fuel ih =>
    intro base out unwind
    rw [unwind_frame_loop]
    split
    · rename_i hlt
      split
      · rename_i new_frame_base found_pc _
        have := ih ((new_frame_base + cfg.ptr_bytes) % ptr_mod cfg) (out + 1)
          (set_frame unwind out ⟨found_pc, ""⟩)
        refine le_trans this ?_
        push_cast
        omega
      · simp
    · simp

/-- The manual scanner returns at least one frame and at most `max max_depth 1`. -/
theorem unwind_frame_bounds (cfg : Config) (p : Process) (unwind : unwind_struct)
    (max_depth : Int) (uc : ucontext_t) :
    1 ≤ (unwind_frame cfg p unwind max_depth uc).1
      ∧ (unwind_frame cfg p unwind max_depth uc).1 ≤ max max_depth 1 := by
  have hfirst : ((unwind_frame_first p unwind uc).1 : Int) ≤ 1 := by
    simp only [unwind_frame_first]
    split <;> simp
  have hloop := unwind_frame_loop_le_max cfg p max_depth max_depth.toNat
    (get_sp_from_ucontext uc) (unwind_frame_first p unwind uc).1 (unwind_frame_first p unwind uc).2
  simp only [unwind_frame]
  split
  · rename_i hpos
    simp only
    constructor
    · omega
    · omega
  · simp [unwind_basic]

theorem unwind_libunwind_loop_le_max {σ : Type} (lib : Libunwind σ) (max_depth : Int) :
    ∀ (fuel : Nat) (cursor : σ) (count : Nat) (unwind : unwind_struct),
      ((unwind_libunwind_loop lib max_depth fuel cursor count unwind).1 : Int)
        ≤ max max_depth (count + 1) := by
  intro fuel
  induction fuel with
  | zero =>
    intro cursor count unwind
    rw [unwind_libunwind_loop]
    cases hb : unwind_libunwind_body lib max_depth cursor count unwind with
    | inl r =>
      have := unwind_libunwind_body_inl lib max_depth cursor count unwind r hb
      simp only
      omega
    | inr x =>
      obtain ⟨c, n, u⟩ := x
      have := unwind_libunwind_body_inr lib max_depth cursor count unwind c n u hb
      simp only
      omega
  | succ fuel ih =>
    intro cursor count unwind
    rw [unwind_libunwind_loop]
    cases hb : unwind_libunwind_body lib max_depth cursor count unwind with
    | inl r =>
      have := unwind_libunwind_body_inl lib max_depth cursor count unwind r hb
      simp only
      omega
    | inr x =>
      obtain ⟨c, n, u⟩ := x
      have h1 := unwind_libunwind_body_inr lib max_depth cursor count unwind c n u hb
      have h2 := ih c n u
      simp only
      omega

/-- The count `unwind_libunwind` returns is at least 0 and at most `max max_depth 1`. -/
theorem unwind_libunwind_bounds {σ : Type} (cfg : Config) (p : Process) (lib : Libunwind σ)
    (unwind : unwind_struct) (max_depth : Int) (uc : ucontext_t) :
    0 ≤ (unwind_libunwind cfg p lib unwind max_depth uc).1
      ∧ (unwind_libunwind cfg p lib unwind max_depth uc).1 ≤ max max_depth 1 := by
  unfold unwind_libunwind
  split
  · rename_i init_local _
    have := unwind_libunwind_loop_le_max lib max_depth max_depth.toNat (init_local uc) 0 unwind
    simp only
    constructor
    · omega
    · simpa using this
  · have := unwind_frame_bounds cfg p unwind max_depth uc
    exact ⟨by omega, this.2⟩

/-- C1, as the code has it, for every `max_depth`: `unwind_basic` returns 1; `unwind_frame`
returns at least 1 and at most `max max_depth 1`; `unwind_libunwind` returns at least 0 and at most
`max max_depth 1`; an accepted result of `unwind_libcorkscrew` is the size its backtrace routine
returned, not clamped, so `unwind_libcorkscrew` returns at most the larger of that size and
`max max_depth 1`. Hence for `max_depth` of at least 1 every strategy returns at most `max_depth`
frames, the legacy library when its routine returns no more than the depth it is passed; and below
1 the manual scanner returns exactly 1 and `unwind_libunwind` 0 or 1. -/
theorem unwind_count_le_max_depth {σ : Type} (cfg : Config) (p : Process)
    (libunwind : Libunwind σ) (libcorkscrew : Libcorkscrew) (unwind : unwind_struct)
    (max_depth : Int) (si : siginfo) (uc : ucontext_t) :
    (unwind_basic unwind uc).1 = 1
      ∧ (1 ≤ (unwind_frame cfg p unwind max_depth uc).1
          ∧ (unwind_frame cfg p unwind max_depth uc).1 ≤ max max_depth 1)
      ∧ (0 ≤ (unwind_libunwind cfg p libunwind unwind max_depth uc).1
          ∧ (unwind_libunwind cfg p libunwind unwind max_depth uc).1 ≤ max max_depth 1)
      ∧ (libcorkscrew.entry_points = true →
          (∃ i : Nat, (i : Int) < (libcorkscrew.unwind_backtrace_signal_arch si uc max_depth).1
            ∧ non_system_symbol (libcorkscrew.get_backtrace_symbols
                (libcorkscrew.unwind_backtrace_signal_arch si uc max_depth).2
                (libcorkscrew.unwind_backtrace_signal_arch si uc max_depth).1 i) = true) →
          (unwind_libcorkscrew cfg p libcorkscrew unwind max_depth si uc).1
            = (libcorkscrew.unwind_backtrace_signal_arch si uc max_depth).1)
      ∧ (unwind_libcorkscrew cfg p libcorkscrew unwind max_depth si uc).1
          ≤ max (max max_depth 1) (libcorkscrew.unwind_backtrace_signal_arch si uc max_depth).1
      ∧ (1 ≤ max_depth →
          (unwind_basic unwind uc).1 ≤ max_depth
            ∧ (unwind_frame cfg p unwind max_depth uc).1 ≤ max_depth
            ∧ (unwind_libunwind cfg p libunwind unwind max_depth uc).1 ≤ max_depth
            ∧ ((libcorkscrew.unwind_backtrace_signal_arch si uc max_depth).1 ≤ max_depth →
                (unwind_libcorkscrew cfg p libcorkscrew unwind max_depth si uc).1 ≤ max_depth))
      ∧ (max_depth < 1 →
          (unwind_frame cfg p unwind max_depth uc).1 = 1
            ∧ (unwind_libunwind cfg p libunwind unwind max_depth uc).1 ≤ 1) := by
  have hbasic : (unwind_basic unwind uc).1 = 1 := rfl
  have hframe := unwind_frame_bounds cfg p unwind max_depth uc
  have hunwind := unwind_libunwind_bounds cfg p libunwind unwind max_depth uc
  have hlegacy : (unwind_libcorkscrew cfg p libcorkscrew unwind max_depth si uc).1
      ≤ max (max max_depth 1) (libcorkscrew.unwind_backtrace_signal_arch si uc max_depth).1 := by
    unfold unwind_libcorkscrew
    split
    · simp only
      split
      · exact le_max_right _ _
      · exact le_trans (unwind_frame_bounds cfg p _ max_depth uc).2 (le_max_left _ _)
    · exact le_trans hframe.2 (le_max_left _ _)
  refine ⟨hbasic, hframe, hunwind, ?_, hlegacy, ?_, ?_⟩
  · intro hentry ⟨i, hi, hsym⟩
    have hfold := unwind_libcorkscrew_fold
      (libcorkscrew.unwind_backtrace_signal_arch si uc max_depth).2
      (libcorkscrew.get_backtrace_symbols
        (libcorkscrew.unwind_backtrace_signal_arch si uc max_depth).2
        (libcorkscrew.unwind_backtrace_signal_arch si uc max_depth).1)
      (List.range (libcorkscrew.unwind_backtrace_signal_arch si uc max_depth).1.toNat)
      unwind false
    have hany : (List.range
        (libcorkscrew.unwind_backtrace_signal_arch si uc max_depth).1.toNat).any
        (fun i => non_system_symbol (libcorkscrew.get_backtrace_symbols
          (libcorkscrew.unwind_backtrace_signal_arch si uc max_depth).2
          (libcorkscrew.unwind_backtrace_signal_arch si uc max_depth).1 i)) = true := by
      rw [List.any_eq_true]
      exact ⟨i, by rw [List.mem_range]; omega, hsym⟩
    have hfound := hfold.1
    rw [hany, Bool.or_true] at hfound
    simp only [unwind_libcorkscrew, hentry, if_true, hfound]
  · intro hD
    have hmax : max max_depth 1 = max_depth := max_eq_left hD
    rw [hmax] at hframe hunwind hlegacy
    refine ⟨by rw [hbasic]; exact hD, hframe.2, hunwind.2, ?_⟩
    intro hsize
    rw [max_eq_left hsize] at hlegacy
    exact hlegacy
  · intro hD
    have hmax : max max_depth 1 = 1 := max_eq_right (by omega)
    rw [hmax] at hframe hunwind
    exact ⟨le_antisymm hframe.2 hframe.1, hunwind.2⟩

/-- C1 as stated fails twice. With `max_depth = 0` the manual scanner, the basic fallback and
`unwind_libunwind` return one frame. With `max_depth = 32` a legacy library whose routine returns
the size 40 has its result accepted, and `unwind_libcorkscrew` returns 40. -/
theorem unwind_count_exceeds_max_depth :
    ¬ ((unwind_frame cfg32 proc_empty zero_frames 0 ⟨0x1000, 0x7000⟩).1 ≤ 0)
      ∧ ¬ ((unwind_basic zero_frames ⟨0x1000, 0x7000⟩).1 ≤ 0)
      ∧ ¬ ((unwind_libunwind cfg32 proc_empty libunwind_three zero_frames 0
              ⟨0x1000, 0x7000⟩).1 ≤ 0)
      ∧ ¬ ((unwind_libcorkscrew cfg32 proc_scan libcorkscrew_over zero_frames 32 ⟨11, 1⟩
              ⟨0x1000, 0x7000⟩).1 ≤ 32) := by
  decide

/-- The count of `unwind_libunwind` when the first frame has offset 0: the loop is left before
`count` is incremented and the result is 0, for `max_depth` 0, -3 and 32. -/
theorem unwind_libunwind_bottom_zero :
    (unwind_libunwind cfg32 proc_empty libunwind_bottom zero_frames 0 ⟨0x1000, 0x7000⟩).1 = 0
      ∧ (unwind_libunwind cfg32 proc_empty libunwind_bottom zero_frames (-3)
          ⟨0x1000, 0x7000⟩).1 = 0
      ∧ (unwind_libunwind cfg32 proc_empty libunwind_bottom zero_frames 32
          ⟨0x1000, 0x7000⟩).1 = 0 := by
  decide

/-- C1 at `max_depth = 32` with both libraries present, the legacy one keeping to the depth, and
at `max_depth = 0`. -/
theorem unwind_count_le_max_depth_witness :
    ((unwind_basic zero_frames ⟨0x1000, 0x7000⟩).1 ≤ 32
      ∧ (unwind_frame cfg32 proc_scan zero_frames 32 ⟨0x1000, 0x7000⟩).1 ≤ 32
      ∧ (unwind_libunwind cfg32 proc_scan libunwind_three zero_frames 32 ⟨0x1000, 0x7000⟩).1 ≤ 32
      ∧ (unwind_libcorkscrew cfg32 proc_scan libcorkscrew_three zero_frames 32 ⟨11, 1⟩
            ⟨0x1000, 0x7000⟩).1 ≤ 32)
    ∧ ((unwind_frame cfg32 proc_scan zero_frames 0 ⟨0x1000, 0x7000⟩).1 = 1
      ∧ (unwind_libunwind cfg32 proc_scan libunwind_three zero_frames 0 ⟨0x1000, 0x7000⟩).1 ≤ 1) :=
  have h32 := (unwind_count_le_max_depth cfg32 proc_scan libunwind_three libcorkscrew_three
    zero_frames 32 ⟨11, 1⟩ ⟨0x1000, 0x7000⟩).2.2.2.2.2.1 (by decide)
  ⟨⟨h32.1, h32.2.1, h32.2.2.1, h32.2.2.2 (by decide)⟩,
   (unwind_count_le_max_depth cfg32 proc_scan libunwind_three libcorkscrew_three
    zero_frames 0 ⟨11, 1⟩ ⟨0x1000, 0x7000⟩).2.2.2.2.2.2 (by decide)⟩

end Bugsnag
